import Mathlib

/-!
Verification of the mov3 core: a shallow embedding of the clip duration
planner (src/core/planner.py), the media selector (src/media/selector.py)
and the job orchestration engine (src/core/engine.py), together with
theorems settling the specified properties.

Modelling conventions:
* Python floats are modelled as exact rationals (ℚ).
* The ambient `random` module is modelled by injected oracle functions
  (a `uniform`-style draw function, an index stream for `random.choice`,
  a shuffle function); properties quantify over all oracles, with an
  in-range hypothesis where the property needs one.
* External collaborators (filesystem scan, ffprobe, ffmpeg encode and
  concatenate) are modelled as oracle values carried in a job
  environment; a value of type `Except String α` models a call that can
  raise (`Except.error` carries the exception message).
-/

namespace Mov3

/-! ## Duration planner (src/core/planner.py) -/

/-- `max(lo, min(hi, x))`, the clamping pattern used throughout planner.py. -/
def clamp (lo hi x : ℚ) : ℚ := max lo (min hi x)

/-- Python `int(x)`: truncation toward zero. -/
def pyInt (x : ℚ) : ℤ := if 0 ≤ x then ⌊x⌋ else ⌈x⌉

/-- `ClipPlan` dataclass from planner.py. -/
structure ClipPlan where
  index : ℕ
  duration : ℚ
  start_time : ℚ
  end_time : ℚ
deriving DecidableEq, Repr

/-- The configuration fields stored by `DurationPlanner.__init__`.
The constructor raises `ValueError` when `min_clip > max_clip`; that check
is embedded at the construction site in the engine (`processAfterValidation`). -/
structure DurationPlanner where
  audio_duration : ℚ
  min_clip : ℚ
  max_clip : ℚ
  overlap : ℚ
  tolerance : ℚ
deriving Repr

/-- `DurationPlanner._estimate_clip_count`. -/
def estimateClipCount (p : DurationPlanner) : ℕ :=
  let avg_duration := (p.min_clip + p.max_clip) / 2
  if avg_duration ≤ p.overlap then
    (max 1 (pyInt (p.audio_duration / p.min_clip))).toNat
  else
    (max 1 (pyInt ((p.audio_duration - p.overlap) / (avg_duration - p.overlap)))).toNat

/-- `DurationPlanner._plan_single_clip`. -/
def planSingleClip (p : DurationPlanner) : List ClipPlan :=
  let duration := p.audio_duration
  let duration :=
    if duration < p.min_clip then p.min_clip
    else if duration > p.max_clip then p.max_clip
    else duration
  [⟨0, duration, 0, duration⟩]

/-- One step of the adjacent-pair smoothing loop in
`DurationPlanner._apply_soft_budgeting`. -/
def softBudgetStep (p : DurationPlanner) (current next_clip : ℚ) : ℚ × ℚ :=
  let diff := |current - next_clip|
  let avg := (current + next_clip) / 2
  if diff > avg * (1/2) then
    (clamp p.min_clip p.max_clip (current * (7/10) + next_clip * (3/10)),
     clamp p.min_clip p.max_clip (current * (3/10) + next_clip * (7/10)))
  else
    (current, next_clip)

/-- The smoothing loop of `_apply_soft_budgeting`: index `i` carries the
(already possibly updated) value `smoothed[i]` into the pair step with
`smoothed[i+1]`, then moves to `i+1` with the updated value. -/
def softBudgetGo (p : DurationPlanner) (current : ℚ) : List ℚ → List ℚ
  | [] => [current]
  | next_clip :: rest =>
      let s := softBudgetStep p current next_clip
      s.1 :: softBudgetGo p s.2 rest

/-- `DurationPlanner._apply_soft_budgeting`. -/
def applySoftBudgeting (p : DurationPlanner) (durations : List ℚ) : List ℚ :=
  match durations with
  | [] => []
  | x :: rest => softBudgetGo p x rest

/-- `DurationPlanner._absorb_error`. -/
def absorbError (p : DurationPlanner) (durations : List ℚ) (error : ℚ) : List ℚ :=
  if durations = [] then durations
  else
    let adjustment_per_clip := error / durations.length
    durations.map (fun duration =>
      clamp p.min_clip p.max_clip (duration + adjustment_per_clip))

/-- `durations[-1] += e; durations[-1] = clamp(...)`: rewrite the last
element of a list by `f`. -/
def setLastWith (f : ℚ → ℚ) : List ℚ → List ℚ
  | [] => []
  | [x] => [f x]
  | x :: y :: rest => x :: setLastWith f (y :: rest)

/-- The `ClipPlan`-building loop at the end of `_plan_multiple_clips`:
timeline positions advance by `duration - overlap`. -/
def mkPlansGo (overlap : ℚ) (i : ℕ) (current_time : ℚ) : List ℚ → List ClipPlan
  | [] => []
  | duration :: rest =>
      ⟨i, duration, current_time, current_time + duration⟩ ::
        mkPlansGo overlap (i + 1) (current_time + duration - overlap) rest

/-- The initial random draw for clip `i` in `_plan_multiple_clips`:
`random.uniform(min_d, max_d)` with the empty-window fallback to the full
`[min_clip, max_clip]` range. -/
def initialDraw (p : DurationPlanner) (target_avg : ℚ)
    (draw : ℕ → ℚ → ℚ → ℚ) (i : ℕ) : ℚ :=
  let min_d := max p.min_clip (target_avg * (1 - p.tolerance))
  let max_d := min p.max_clip (target_avg * (1 + p.tolerance))
  if min_d > max_d then draw i p.min_clip p.max_clip
  else draw i min_d max_d

/-- The conditional error-absorption pass of `_plan_multiple_clips`
(`if abs(error) > 0.01: durations = self._absorb_error(...)`). -/
def absorbStep (p : DurationPlanner) (num_clips : ℕ) (durations : List ℚ) : List ℚ :=
  let current_total := durations.sum - ((num_clips : ℚ) - 1) * p.overlap
  let error := p.audio_duration - current_total
  if |error| > 1/100 then absorbError p durations error else durations

/-- The final adjustment of `_plan_multiple_clips`: the residual error is
added to the last clip only, which is then clamped. -/
def finalAdjust (p : DurationPlanner) (num_clips : ℕ) (durations : List ℚ) : List ℚ :=
  let final_total := durations.sum - ((num_clips : ℚ) - 1) * p.overlap
  let final_error := p.audio_duration - final_total
  if |final_error| > 1/100 then
    setLastWith (fun d => clamp p.min_clip p.max_clip (d + final_error)) durations
  else durations

/-- `DurationPlanner._plan_multiple_clips`, parametrised by the random
source `draw` (modelling `random.uniform`). -/
def planMultipleClips (p : DurationPlanner) (num_clips : ℕ)
    (draw : ℕ → ℚ → ℚ → ℚ) : List ClipPlan :=
  let target_sum := p.audio_duration + ((num_clips : ℚ) - 1) * p.overlap
  let target_avg := target_sum / (num_clips : ℚ)
  let durations := (List.range num_clips).map (initialDraw p target_avg draw)
  let durations := applySoftBudgeting p durations
  let durations := absorbStep p num_clips durations
  let durations := finalAdjust p num_clips durations
  mkPlansGo p.overlap 0 0 durations

/-- `DurationPlanner.plan_clips`. -/
def planClips (p : DurationPlanner) (draw : ℕ → ℚ → ℚ → ℚ) : List ClipPlan :=
  let num_clips := estimateClipCount p
  if num_clips = 1 then planSingleClip p
  else planMultipleClips p num_clips draw

/-- A valid outcome of the injected random source: each call to
`random.uniform(a, b)` with `a ≤ b` yields a value in `[a, b]`. -/
def DrawInRange (draw : ℕ → ℚ → ℚ → ℚ) : Prop :=
  ∀ i a b, a ≤ b → a ≤ draw i a b ∧ draw i a b ≤ b

/-- The random source that always answers with the lower endpoint. -/
def lowDraw : ℕ → ℚ → ℚ → ℚ := fun _ a _ => a

/-- The durations of a plan. -/
def planDurations (plans : List ClipPlan) : List ℚ :=
  plans.map ClipPlan.duration

/-- `Σ duration_i - (n-1)·overlap - audio_duration`, the signed error of a
plan against the target (as in `DurationPlanner.get_summary`). -/
def planError (p : DurationPlanner) (plans : List ClipPlan) : ℚ :=
  (planDurations plans).sum - ((plans.length : ℚ) - 1) * p.overlap - p.audio_duration

theorem lowDraw_inRange : DrawInRange lowDraw := by
  intro i a b h
  exact ⟨le_refl a, h⟩

/-- Last element of a duration list (0 for the empty list). -/
def lastD (l : List ℚ) : ℚ := l.getLast?.getD 0

/-! ### Planner lemmas -/

theorem clamp_mem (lo hi x : ℚ) (h : lo ≤ hi) :
    lo ≤ clamp lo hi x ∧ clamp lo hi x ≤ hi := by
  unfold clamp
  exact ⟨le_max_left _ _, max_le h (min_le_left _ _)⟩

theorem softBudgetGo_length (p : DurationPlanner) (l : List ℚ) :
    ∀ x, (softBudgetGo p x l).length = l.length + 1 := by
  induction l with
  | nil => intro x; rfl
  | cons y rest ih => intro x; simp [softBudgetGo, ih]

theorem applySoftBudgeting_length (p : DurationPlanner) (l : List ℚ) :
    (applySoftBudgeting p l).length = l.length := by
  cases l with
  | nil => rfl
  | cons x rest => simp [applySoftBudgeting, softBudgetGo_length]

theorem absorbError_length (p : DurationPlanner) (l : List ℚ) (e : ℚ) :
    (absorbError p l e).length = l.length := by
  unfold absorbError
  split <;> simp

theorem setLastWith_concat (f : ℚ → ℚ) (l : List ℚ) (a : ℚ) :
    setLastWith f (l ++ [a]) = l ++ [f a] := by
  induction l with
  | nil => rfl
  | cons x xs ih =>
    cases xs with
    | nil => rfl
    | cons y ys =>
      simp only [List.cons_append, List.append_eq, setLastWith] at ih ⊢
      rw [ih]

theorem setLastWith_length (f : ℚ → ℚ) (l : List ℚ) :
    (setLastWith f l).length = l.length := by
  rcases List.eq_nil_or_concat l with h | ⟨L, b, h⟩
  · simp [h, setLastWith]
  · subst h; simp [List.concat_eq_append, setLastWith_concat]

theorem absorbStep_length (p : DurationPlanner) (n : ℕ) (l : List ℚ) :
    (absorbStep p n l).length = l.length := by
  unfold absorbStep
  dsimp only
  split
  · exact absorbError_length _ _ _
  · rfl

theorem finalAdjust_length (p : DurationPlanner) (n : ℕ) (l : List ℚ) :
    (finalAdjust p n l).length = l.length := by
  unfold finalAdjust
  dsimp only
  split
  · exact setLastWith_length _ _
  · rfl

theorem mkPlansGo_durations (ov : ℚ) (ds : List ℚ) :
    ∀ i t, planDurations (mkPlansGo ov i t ds) = ds := by
  induction ds with
  | nil => intro i t; rfl
  | cons d rest ih =>
    intro i t
    simp only [mkPlansGo, planDurations, List.map_cons] at ih ⊢
    rw [ih]

theorem mkPlansGo_length (ov : ℚ) (ds : List ℚ) (i : ℕ) (t : ℚ) :
    (mkPlansGo ov i t ds).length = ds.length := by
  have h := congrArg List.length (mkPlansGo_durations ov ds i t)
  simpa [planDurations] using h

theorem lastD_concat (l : List ℚ) (a : ℚ) : lastD (l ++ [a]) = a := by
  simp [lastD]

theorem initialDraw_mem (p : DurationPlanner) (t : ℚ) (draw : ℕ → ℚ → ℚ → ℚ)
    (i : ℕ) (hmm : p.min_clip ≤ p.max_clip) (hdraw : DrawInRange draw) :
    p.min_clip ≤ initialDraw p t draw i ∧ initialDraw p t draw i ≤ p.max_clip := by
  unfold initialDraw
  dsimp only
  split
  · exact hdraw i _ _ hmm
  · rename_i h
    push_neg at h
    have h1 := hdraw i _ _ h
    refine ⟨le_trans (le_max_left _ _) h1.1, le_trans h1.2 (min_le_left _ _)⟩

theorem softBudgetStep_mem (p : DurationPlanner) (a b : ℚ)
    (hmm : p.min_clip ≤ p.max_clip)
    (ha : p.min_clip ≤ a ∧ a ≤ p.max_clip) (hb : p.min_clip ≤ b ∧ b ≤ p.max_clip) :
    (p.min_clip ≤ (softBudgetStep p a b).1 ∧ (softBudgetStep p a b).1 ≤ p.max_clip) ∧
    (p.min_clip ≤ (softBudgetStep p a b).2 ∧ (softBudgetStep p a b).2 ≤ p.max_clip) := by
  unfold softBudgetStep
  dsimp only
  split
  · exact ⟨clamp_mem _ _ _ hmm, clamp_mem _ _ _ hmm⟩
  · exact ⟨ha, hb⟩

theorem softBudgetGo_mem (p : DurationPlanner) (hmm : p.min_clip ≤ p.max_clip)
    (l : List ℚ) :
    ∀ x, (p.min_clip ≤ x ∧ x ≤ p.max_clip) →
      (∀ y ∈ l, p.min_clip ≤ y ∧ y ≤ p.max_clip) →
      ∀ z ∈ softBudgetGo p x l, p.min_clip ≤ z ∧ z ≤ p.max_clip := by
  induction l with
  | nil =>
    intro x hx _ z hz
    simp [softBudgetGo] at hz
    subst hz; exact hx
  | cons y rest ih =>
    intro x hx hl z hz
    simp only [softBudgetGo, List.mem_cons] at hz
    have hstep := softBudgetStep_mem p x y hmm hx (hl y (by simp))
    rcases hz with hz | hz
    · subst hz; exact hstep.1
    · exact ih _ hstep.2 (fun w hw => hl w (by simp [hw])) z hz

theorem applySoftBudgeting_mem (p : DurationPlanner) (hmm : p.min_clip ≤ p.max_clip)
    (l : List ℚ) (hl : ∀ y ∈ l, p.min_clip ≤ y ∧ y ≤ p.max_clip) :
    ∀ z ∈ applySoftBudgeting p l, p.min_clip ≤ z ∧ z ≤ p.max_clip := by
  cases l with
  | nil => intro z hz; simp [applySoftBudgeting] at hz
  | cons x rest =>
    exact softBudgetGo_mem p hmm rest x (hl x (by simp))
      (fun w hw => hl w (by simp [hw]))

theorem absorbError_mem (p : DurationPlanner) (hmm : p.min_clip ≤ p.max_clip)
    (l : List ℚ) (e : ℚ) :
    ∀ z ∈ absorbError p l e, p.min_clip ≤ z ∧ z ≤ p.max_clip := by
  unfold absorbError
  split
  · intro z hz; rename_i h; rw [h] at hz; simp at hz
  · intro z hz
    simp only [List.mem_map] at hz
    obtain ⟨w, _, hw⟩ := hz
    rw [← hw]
    exact clamp_mem _ _ _ hmm

theorem absorbStep_mem (p : DurationPlanner) (hmm : p.min_clip ≤ p.max_clip)
    (n : ℕ) (l : List ℚ) (hl : ∀ y ∈ l, p.min_clip ≤ y ∧ y ≤ p.max_clip) :
    ∀ z ∈ absorbStep p n l, p.min_clip ≤ z ∧ z ≤ p.max_clip := by
  unfold absorbStep
  dsimp only
  split
  · exact absorbError_mem p hmm l _
  · exact hl

theorem setLastWith_mem (f : ℚ → ℚ) (P : ℚ → Prop) (l : List ℚ)
    (hl : ∀ y ∈ l, P y) (hf : ∀ y, P (f y)) :
    ∀ z ∈ setLastWith f l, P z := by
  rcases List.eq_nil_or_concat l with h | ⟨L, b, h⟩
  · subst h; intro z hz; simp [setLastWith] at hz
  · subst h
    simp only [List.concat_eq_append] at hl
    rw [List.concat_eq_append, setLastWith_concat]
    intro z hz
    rcases List.mem_append.1 hz with hz | hz
    · exact hl z (List.mem_append.2 (Or.inl hz))
    · simp at hz; subst hz; exact hf b

theorem finalAdjust_mem (p : DurationPlanner) (hmm : p.min_clip ≤ p.max_clip)
    (n : ℕ) (l : List ℚ) (hl : ∀ y ∈ l, p.min_clip ≤ y ∧ y ≤ p.max_clip) :
    ∀ z ∈ finalAdjust p n l, p.min_clip ≤ z ∧ z ≤ p.max_clip := by
  unfold finalAdjust
  dsimp only
  split
  · exact setLastWith_mem _ _ l hl (fun y => clamp_mem _ _ _ hmm)
  · exact hl

/-- The disjunction delivered by the final residual-correction step: either
the plan total is on target within the blanket tolerance, or the clamp on
the last clip was binding and pinned it to a bound. -/
theorem finalAdjust_error (p : DurationPlanner) (n : ℕ)
    (hmm : p.min_clip ≤ p.max_clip) (ds : List ℚ) (hne : ds ≠ []) :
    |(finalAdjust p n ds).sum - ((n : ℚ) - 1) * p.overlap - p.audio_duration| ≤ 1/50 ∨
    lastD (finalAdjust p n ds) = p.min_clip ∨
    lastD (finalAdjust p n ds) = p.max_clip := by
  rcases List.eq_nil_or_concat ds with h | ⟨L, a, h⟩
  · exact absurd h hne
  subst h
  rw [List.concat_eq_append] at *
  unfold finalAdjust
  dsimp only
  set fe := p.audio_duration - ((L ++ [a]).sum - ((n : ℚ) - 1) * p.overlap) with hfe
  by_cases hbig : |fe| > 1/100
  · rw [if_pos hbig, setLastWith_concat]
    rcases le_or_lt (a + fe) p.max_clip with h1 | h1
    · rcases le_or_lt p.min_clip (a + fe) with h2 | h2
      · left
        have hc : clamp p.min_clip p.max_clip (a + fe) = a + fe := by
          unfold clamp
          rw [min_eq_right h1, max_eq_right h2]
        rw [hc]
        have hsum : (L ++ [a + fe]).sum - ((n : ℚ) - 1) * p.overlap - p.audio_duration = 0 := by
          simp only [List.sum_append, List.sum_cons, List.sum_nil] at hfe ⊢
          rw [hfe]; ring
        rw [hsum]
        norm_num
      · right; left
        have hc : clamp p.min_clip p.max_clip (a + fe) = p.min_clip := by
          unfold clamp
          rw [min_eq_right h1, max_eq_left (le_of_lt h2)]
        rw [hc, lastD_concat]
    · right; right
      have hc : clamp p.min_clip p.max_clip (a + fe) = p.max_clip := by
        unfold clamp
        rw [min_eq_left (le_of_lt h1), max_eq_right hmm]
      rw [hc, lastD_concat]
  · rw [if_neg hbig]
    left
    push_neg at hbig
    have heq : (L ++ [a]).sum - ((n : ℚ) - 1) * p.overlap - p.audio_duration = -fe := by
      rw [hfe]; ring
    rw [heq, abs_neg]
    linarith

/-! ### Planner theorems (claims C1, C5, C6) -/

/-- C1 (amended). For `min_clip ≤ max_clip` and an estimated clip count
`n > 1`, every plan produced by `plan_clips` (under any outcome of the
random source) has exactly `n` clips and satisfies either
`|Σ duration_i - (n-1)·overlap - audio_duration| ≤ 0.02` or the residual
clamp on the last clip was binding, pinning its duration to `min_clip` or
`max_clip`. -/
theorem planner_duration_conservation (p : DurationPlanner) (draw : ℕ → ℚ → ℚ → ℚ)
    (hmm : p.min_clip ≤ p.max_clip) (hn : 1 < estimateClipCount p) :
    (planClips p draw).length = estimateClipCount p ∧
    (|planError p (planClips p draw)| ≤ 1/50 ∨
     lastD (planDurations (planClips p draw)) = p.min_clip ∨
     lastD (planDurations (planClips p draw)) = p.max_clip) := by
  have hne : ¬ (estimateClipCount p = 1) := by omega
  have hplan : planClips p draw = planMultipleClips p (estimateClipCount p) draw := by
    unfold planClips
    dsimp only
    rw [if_neg hne]
  set n := estimateClipCount p with hn'
  rw [hplan]
  unfold planMultipleClips
  dsimp only
  set ds2 := absorbStep p n (applySoftBudgeting p ((List.range n).map
    (initialDraw p ((p.audio_duration + ((n : ℚ) - 1) * p.overlap) / (n : ℚ)) draw))) with hds2
  have hlen2 : ds2.length = n := by
    rw [hds2, absorbStep_length, applySoftBudgeting_length, List.length_map,
      List.length_range]
  have hne2 : ds2 ≠ [] := by
    intro h
    rw [h] at hlen2
    simp at hlen2
    omega
  have hlen3 : (finalAdjust p n ds2).length = n := by
    rw [finalAdjust_length]; exact hlen2
  have hdur : planDurations (mkPlansGo p.overlap 0 0 (finalAdjust p n ds2)) =
      finalAdjust p n ds2 := mkPlansGo_durations _ _ _ _
  constructor
  · rw [mkPlansGo_length]; exact hlen3
  · rw [planError, hdur, mkPlansGo_length, hlen3]
    exact finalAdjust_error p n hmm ds2 hne2

/-- Clip-count estimate at the C1 counterexample inputs. -/
theorem estimateClipCount_eight : estimateClipCount ⟨8, 3, 3, 0, 1/4⟩ = 2 := by
  have h : pyInt (((8 : ℚ) - 0) / ((3 + 3) / 2 - 0)) = 2 := by norm_num [pyInt]
  have h2 : ((8 : ℚ) - 0) / ((3 + 3) / 2 - 0) =
      ((⟨8, 3, 3, 0, 1/4⟩ : DurationPlanner).audio_duration -
        (⟨8, 3, 3, 0, 1/4⟩ : DurationPlanner).overlap) /
      (((⟨8, 3, 3, 0, 1/4⟩ : DurationPlanner).min_clip +
        (⟨8, 3, 3, 0, 1/4⟩ : DurationPlanner).max_clip) / 2 -
        (⟨8, 3, 3, 0, 1/4⟩ : DurationPlanner).overlap) := by norm_num
  rw [h2] at h
  unfold estimateClipCount
  rw [if_neg (by norm_num), h]
  decide

/-- Clip-count estimate at the spec example inputs. -/
theorem estimateClipCount_twelve : estimateClipCount ⟨12, 2, 5, 1/2, 1/4⟩ = 3 := by
  have h : pyInt (((12 : ℚ) - 1/2) / ((2 + 5) / 2 - 1/2)) = 3 := by norm_num [pyInt]
  have h2 : ((12 : ℚ) - 1/2) / ((2 + 5) / 2 - 1/2) =
      ((⟨12, 2, 5, 1/2, 1/4⟩ : DurationPlanner).audio_duration -
        (⟨12, 2, 5, 1/2, 1/4⟩ : DurationPlanner).overlap) /
      (((⟨12, 2, 5, 1/2, 1/4⟩ : DurationPlanner).min_clip +
        (⟨12, 2, 5, 1/2, 1/4⟩ : DurationPlanner).max_clip) / 2 -
        (⟨12, 2, 5, 1/2, 1/4⟩ : DurationPlanner).overlap) := by norm_num
  rw [h2] at h
  unfold estimateClipCount
  rw [if_neg (by norm_num), h]
  decide

set_option maxHeartbeats 1000000 in
/-- Fully evaluated plan at the C1 counterexample inputs under `lowDraw`:
two clips of 3 s each, effective total 6 s against a 8 s target. -/
theorem planClips_eight_eval :
    planClips ⟨8, 3, 3, 0, 1/4⟩ lowDraw = [⟨0, 3, 0, 3⟩, ⟨1, 3, 3, 6⟩] := by
  simp only [planClips, estimateClipCount_eight]
  norm_num [planMultipleClips, initialDraw, lowDraw, applySoftBudgeting, softBudgetGo,
    softBudgetStep, absorbStep, absorbError, clamp, finalAdjust, setLastWith, mkPlansGo,
    List.range_succ]

set_option maxHeartbeats 1000000 in
/-- Fully evaluated plan at the spec example inputs under `lowDraw`. -/
theorem planClips_twelve_eval :
    planClips ⟨12, 2, 5, 1/2, 1/4⟩ lowDraw =
      [⟨0, 13/3, 0, 13/3⟩, ⟨1, 13/3, 23/6, 49/6⟩, ⟨2, 13/3, 23/3, 12⟩] := by
  simp only [planClips, estimateClipCount_twelve]
  norm_num [planMultipleClips, initialDraw, lowDraw, applySoftBudgeting, softBudgetGo,
    softBudgetStep, absorbStep, absorbError, clamp, finalAdjust, setLastWith, mkPlansGo,
    List.range_succ]
  norm_num [show |(13 : ℚ)/4| = 13/4 from by norm_num, mkPlansGo, setLastWith, clamp,
    show (([13/4, 13/4, 13/4] : List ℚ) = []) = False from by simp]

/-- Witness for C1 at `audio=12, min=2, max=5, overlap=0.5, tolerance=0.25`
(the spec example, where the estimate is 3 clips). -/
theorem planner_duration_conservation_witness :
    ((⟨12, 2, 5, 1/2, 1/4⟩ : DurationPlanner).min_clip ≤
      (⟨12, 2, 5, 1/2, 1/4⟩ : DurationPlanner).max_clip) ∧
    1 < estimateClipCount ⟨12, 2, 5, 1/2, 1/4⟩ ∧
    ((planClips ⟨12, 2, 5, 1/2, 1/4⟩ lowDraw).length =
        estimateClipCount ⟨12, 2, 5, 1/2, 1/4⟩ ∧
     (|planError ⟨12, 2, 5, 1/2, 1/4⟩ (planClips ⟨12, 2, 5, 1/2, 1/4⟩ lowDraw)| ≤ 1/50 ∨
      lastD (planDurations (planClips ⟨12, 2, 5, 1/2, 1/4⟩ lowDraw)) =
        (⟨12, 2, 5, 1/2, 1/4⟩ : DurationPlanner).min_clip ∨
      lastD (planDurations (planClips ⟨12, 2, 5, 1/2, 1/4⟩ lowDraw)) =
        (⟨12, 2, 5, 1/2, 1/4⟩ : DurationPlanner).max_clip)) :=
  ⟨by norm_num, by rw [estimateClipCount_twelve]; norm_num,
    planner_duration_conservation ⟨12, 2, 5, 1/2, 1/4⟩ lowDraw (by norm_num)
      (by rw [estimateClipCount_twelve]; norm_num)⟩

/-- C1 counterexample. At `audio=8, min=max=3, overlap=0, tolerance=0.25`
the claim hypotheses hold (`audio > overlap`, `min ≤ max`, estimated
`n = 2 > 1`), yet for the in-range random outcome `lowDraw` the plan's
effective total misses the audio duration by 2 seconds. -/
theorem planner_duration_conservation_counterexample :
    ((⟨8, 3, 3, 0, 1/4⟩ : DurationPlanner).min_clip ≤
      (⟨8, 3, 3, 0, 1/4⟩ : DurationPlanner).max_clip) ∧
    ((⟨8, 3, 3, 0, 1/4⟩ : DurationPlanner).overlap <
      (⟨8, 3, 3, 0, 1/4⟩ : DurationPlanner).audio_duration) ∧
    1 < estimateClipCount ⟨8, 3, 3, 0, 1/4⟩ ∧
    ¬ (∀ draw, DrawInRange draw →
        |planError ⟨8, 3, 3, 0, 1/4⟩ (planClips ⟨8, 3, 3, 0, 1/4⟩ draw)| ≤ 1/50) := by
  refine ⟨by norm_num, by norm_num, by rw [estimateClipCount_eight]; norm_num, ?_⟩
  intro h
  have h2 := h lowDraw lowDraw_inRange
  rw [planClips_eight_eval] at h2
  norm_num [planError, planDurations] at h2

/-- C5. Every clip duration produced by `plan_clips` — single-clip and
multi-clip cases alike, under any in-range outcome of the random source —
lies in the closed interval `[min_clip, max_clip]`. -/
theorem planner_bounds (p : DurationPlanner) (draw : ℕ → ℚ → ℚ → ℚ)
    (hmm : p.min_clip ≤ p.max_clip) (hdraw : DrawInRange draw) :
    ∀ plan ∈ planClips p draw, p.min_clip ≤ plan.duration ∧ plan.duration ≤ p.max_clip := by
  intro plan hplan
  unfold planClips at hplan
  dsimp only at hplan
  split at hplan
  · unfold planSingleClip at hplan
    dsimp only at hplan
    simp only [List.mem_singleton] at hplan
    subst hplan
    dsimp only
    split
    · exact ⟨le_refl _, hmm⟩
    · split
      · exact ⟨hmm, le_refl _⟩
      · rename_i h1 h2
        push_neg at h1 h2
        exact ⟨h1, h2⟩
  · unfold planMultipleClips at hplan
    dsimp only at hplan
    set n := estimateClipCount p
    set ds3 := finalAdjust p n (absorbStep p n (applySoftBudgeting p
      ((List.range n).map (initialDraw p
        ((p.audio_duration + ((n : ℚ) - 1) * p.overlap) / (n : ℚ)) draw)))) with hds3
    have hd : plan.duration ∈ ds3 := by
      rw [← mkPlansGo_durations p.overlap ds3 0 0]
      exact List.mem_map_of_mem ClipPlan.duration hplan
    have h0 : ∀ y ∈ (List.range n).map (initialDraw p
        ((p.audio_duration + ((n : ℚ) - 1) * p.overlap) / (n : ℚ)) draw),
        p.min_clip ≤ y ∧ y ≤ p.max_clip := by
      intro y hy
      rcases List.mem_map.1 hy with ⟨i, _, hi⟩
      rw [← hi]
      exact initialDraw_mem p _ draw i hmm hdraw
    exact finalAdjust_mem p hmm n _ (absorbStep_mem p hmm n _
      (applySoftBudgeting_mem p hmm _ h0)) plan.duration hd

/-- Witness for C5 at the spec example inputs, instantiated at the first
clip of the concretely computed plan. -/
theorem planner_bounds_witness :
    (⟨0, 13/3, 0, 13/3⟩ : ClipPlan) ∈ planClips ⟨12, 2, 5, 1/2, 1/4⟩ lowDraw ∧
    ((⟨12, 2, 5, 1/2, 1/4⟩ : DurationPlanner).min_clip ≤ (13/3 : ℚ) ∧
      (13/3 : ℚ) ≤ (⟨12, 2, 5, 1/2, 1/4⟩ : DurationPlanner).max_clip) := by
  have hmem : (⟨0, 13/3, 0, 13/3⟩ : ClipPlan) ∈ planClips ⟨12, 2, 5, 1/2, 1/4⟩ lowDraw := by
    rw [planClips_twelve_eval]
    simp
  exact ⟨hmem, planner_bounds ⟨12, 2, 5, 1/2, 1/4⟩ lowDraw (by norm_num) lowDraw_inRange
    ⟨0, 13/3, 0, 13/3⟩ hmem⟩

/-- C6. With `audio_duration = 1, min = 2, max = 5` and the default
`overlap = 0.5`, the planner estimates a single clip and `plan_clips`
returns exactly one plan with duration clamped to `2` (not `1`),
`start_time = 0` and `end_time = 2` — for every random source, since the
single-clip path draws nothing. -/
theorem single_clip_clamp :
    ∀ draw : ℕ → ℚ → ℚ → ℚ,
      estimateClipCount ⟨1, 2, 5, 1/2, 1/4⟩ = 1 ∧
      planClips ⟨1, 2, 5, 1/2, 1/4⟩ draw = [⟨0, 2, 0, 2⟩] := by
  intro draw
  have h : pyInt (((1 : ℚ) - 1/2) / ((2 + 5) / 2 - 1/2)) = 0 := by norm_num [pyInt]
  have h2 : ((1 : ℚ) - 1/2) / ((2 + 5) / 2 - 1/2) =
      ((⟨1, 2, 5, 1/2, 1/4⟩ : DurationPlanner).audio_duration -
        (⟨1, 2, 5, 1/2, 1/4⟩ : DurationPlanner).overlap) /
      (((⟨1, 2, 5, 1/2, 1/4⟩ : DurationPlanner).min_clip +
        (⟨1, 2, 5, 1/2, 1/4⟩ : DurationPlanner).max_clip) / 2 -
        (⟨1, 2, 5, 1/2, 1/4⟩ : DurationPlanner).overlap) := by norm_num
  rw [h2] at h
  have hest : estimateClipCount ⟨1, 2, 5, 1/2, 1/4⟩ = 1 := by
    unfold estimateClipCount
    rw [if_neg (by norm_num), h]
    decide
  refine ⟨hest, ?_⟩
  simp only [planClips, hest]
  norm_num [planSingleClip]

/-! ## Media selector (src/media/selector.py) -/

/-- `MediaType` enum. -/
inductive MediaType
  | IMAGE
  | VIDEO
deriving DecidableEq, Repr

/-- `SelectionMode` enum. -/
inductive SelectionMode
  | SEQUENTIAL
  | RANDOM
deriving DecidableEq, Repr

/-- `MediaFile` dataclass (paths are modelled as strings; `duration` is
`None` until probed; comparison `==` on dataclasses is field-wise). -/
structure MediaFile where
  path : String
  type : MediaType
  duration : Option ℚ := none
  used_segments : List (ℚ × ℚ) := []
  reuse_count : ℕ := 0
deriving DecidableEq, Repr

instance : Inhabited MediaFile := ⟨⟨"", MediaType.IMAGE, none, [], 0⟩⟩

/-- `variation` dictionary produced by `_generate_variation`. -/
structure Variation where
  zoom : ℚ
  position_offset_x : ℚ
  position_offset_y : ℚ
  brightness : ℚ
  flip_horizontal : Bool
  flip_vertical : Bool
deriving DecidableEq, Repr

/-- `MediaSelection` dataclass. -/
structure MediaSelection where
  file : MediaFile
  duration : ℚ
  start_time : Option ℚ := none
  end_time : Option ℚ := none
  variation : Option Variation := none
deriving DecidableEq, Repr

/-- The mutable state of a `MediaSelector` instance (configuration plus
`media_files`, `current_index`, `last_selected`). -/
structure MediaSelector where
  mode : SelectionMode
  anti_consecutive : Bool
  media_files : List MediaFile
  current_index : ℕ
  last_selected : Option MediaFile
deriving Repr

/-- The random draws available to one `select_next` call:
`uniform` models `random.uniform` (for video segment planning),
`choice` models the index stream behind `random.choice` (random mode),
`varUniform` the four `random.uniform` draws of `_generate_variation`,
`rand` the `random.random()` roll for the horizontal flip. -/
structure SelRandom where
  uniform : ℚ → ℚ → ℚ
  choice : ℕ → ℕ
  varUniform : ℕ → ℚ → ℚ → ℚ
  rand : ℚ

/-- One entry of the sorted folder listing consumed by `_load_media`
(`suffix` is the already-lowercased file extension). -/
structure DirEntry where
  name : String
  suffix : String
  isFile : Bool
deriving DecidableEq, Repr

/-- Default `image_formats` of `MediaSelector.__init__`. -/
def defaultImageFormats : List String := [".jpg", ".jpeg", ".png", ".bmp", ".webp"]

/-- Default `video_formats` of `MediaSelector.__init__`. -/
def defaultVideoFormats : List String := [".mp4", ".mov", ".avi", ".mkv", ".webm"]

/-- The per-entry classification of the `_load_media` scan loop: skip
non-files, classify by extension, ignore unknown extensions. -/
def classifyEntry (image_formats video_formats : List String) (e : DirEntry) :
    Option MediaFile :=
  if ¬ e.isFile then none
  else if image_formats.contains e.suffix then
    some ⟨e.name, MediaType.IMAGE, none, [], 0⟩
  else if video_formats.contains e.suffix then
    some ⟨e.name, MediaType.VIDEO, none, [], 0⟩
  else none

/-- `MediaSelector._load_media`: if the folder is missing only a warning is
logged and the pool stays empty; otherwise the sorted listing is scanned
and classified.  In random mode the pool is shuffled once (the shuffle is
an injected oracle). -/
def loadMedia (folderExists : Bool) (entries : List DirEntry)
    (mode : SelectionMode) (image_formats video_formats : List String)
    (shuffle : List MediaFile → List MediaFile) : List MediaFile :=
  if ¬ folderExists then []
  else
    let files := entries.filterMap (classifyEntry image_formats video_formats)
    if mode = SelectionMode.RANDOM then shuffle files else files

/-- The selector state built by `MediaSelector.__init__`. -/
def mediaSelectorState (folderExists : Bool) (entries : List DirEntry)
    (mode : SelectionMode) (anti_consecutive : Bool)
    (image_formats video_formats : List String)
    (shuffle : List MediaFile → List MediaFile) : MediaSelector :=
  { mode := mode
    anti_consecutive := anti_consecutive
    media_files := loadMedia folderExists entries mode image_formats video_formats shuffle
    current_index := 0
    last_selected := none }

/-- `MediaSelector.__init__`: builds the state and calls `_load_media`.
The source has no `raise` on this path, so construction always succeeds;
the `Except` result records that fact against the spec's claim that an
empty pool makes construction fail. -/
def mediaSelectorInit (folderExists : Bool) (entries : List DirEntry)
    (mode : SelectionMode) (anti_consecutive : Bool)
    (image_formats video_formats : List String)
    (shuffle : List MediaFile → List MediaFile) : Except String MediaSelector :=
  Except.ok (mediaSelectorState folderExists entries mode anti_consecutive
    image_formats video_formats shuffle)

/-- The anti-consecutive skip test of `select_next`
(`self.anti_consecutive and avoid_file and candidate == avoid_file`). -/
def shouldSkip (anti_consecutive : Bool) (avoid_file : Option MediaFile)
    (candidate : MediaFile) : Bool :=
  anti_consecutive &&
    (match avoid_file with
     | some a => decide (candidate = a)
     | none => false)

/-- The sequential-mode selection loop of `select_next`: at most
`media_files.length` attempts (the fuel), advancing `current_index` with
wraparound on each skip.  Returns the chosen index (or `none` when every
attempt was skipped) together with the final `current_index`. -/
def seqSelectLoop (files : List MediaFile) (anti_consecutive : Bool)
    (avoid_file : Option MediaFile) : ℕ → ℕ → Option ℕ × ℕ
  | ci, 0 => (none, ci)
  | ci, fuel + 1 =>
      let candidate := files.getD ci default
      if shouldSkip anti_consecutive avoid_file candidate then
        seqSelectLoop files anti_consecutive avoid_file ((ci + 1) % files.length) fuel
      else
        (some ci, (ci + 1) % files.length)

/-- The random-mode selection loop of `select_next`: up to 50 draws from
the `choice` stream (indices reduced mod the pool size, modelling
`random.choice`), skipping anti-consecutive hits. -/
def randSelectLoop (files : List MediaFile) (anti_consecutive : Bool)
    (avoid_file : Option MediaFile) (choice : ℕ → ℕ) : ℕ → ℕ → Option ℕ
  | _, 0 => none
  | attempts, fuel + 1 =>
      let idx := choice attempts % files.length
      let candidate := files.getD idx default
      if shouldSkip anti_consecutive avoid_file candidate then
        randSelectLoop files anti_consecutive avoid_file choice (attempts + 1) fuel
      else
        some idx

/-- Total used length `Σ (end - start)` over `used_segments`. -/
def segmentsLength (segs : List (ℚ × ℚ)) : ℚ :=
  (segs.map (fun s => s.2 - s.1)).sum

/-- Comparison used by Python `sorted` on `(start, end)` tuples:
lexicographic order. -/
def segLE (a b : ℚ × ℚ) : Bool :=
  decide (a.1 < b.1 ∨ (a.1 = b.1 ∧ a.2 ≤ b.2))

/-- `sorted(used_segments)`. -/
def sortSegments (segs : List (ℚ × ℚ)) : List (ℚ × ℚ) :=
  segs.mergeSort segLE

/-- The gap scan of `_find_available_video_segment`: walk the sorted used
segments carrying `last_end`, returning the first gap start whose gap is
at least `needed`, plus the final `last_end` for the trailing-gap check. -/
def findGapLoop (needed : ℚ) : ℚ → List (ℚ × ℚ) → Option ℚ × ℚ
  | last_end, [] => (none, last_end)
  | last_end, (s, e) :: rest =>
      if s - last_end ≥ needed then (some last_end, last_end)
      else findGapLoop needed e rest

/-- `MediaSelector._find_available_video_segment`. -/
def findAvailableVideoSegment (total_duration needed_duration : ℚ)
    (used_segments : List (ℚ × ℚ)) (u : ℚ → ℚ → ℚ) : ℚ :=
  let sorted_segments := sortSegments used_segments
  match findGapLoop needed_duration 0 sorted_segments with
  | (some gap_start, _) => gap_start
  | (none, last_end) =>
      if total_duration - last_end ≥ needed_duration then last_end
      else u 0 (max 0 (total_duration - needed_duration))

/-- `MediaSelector._plan_video_segment`: computes the `(start, end)`
interval for this use of a video file and appends it to the file's
`used_segments` (the Python code mutates `selection.file` in place). -/
def planVideoSegment (f : MediaFile) (desired_duration : ℚ) (u : ℚ → ℚ → ℚ) :
    (ℚ × ℚ) × MediaFile :=
  let video_duration := f.duration.getD 30
  let start_time :=
    if f.used_segments = [] then
      let max_start := max 0 (video_duration - desired_duration)
      if max_start > 0 then u 0 max_start else 0
    else
      let available_duration := video_duration - segmentsLength f.used_segments
      if available_duration ≥ desired_duration then
        findAvailableVideoSegment video_duration desired_duration f.used_segments u
      else
        u 0 (max 0 (video_duration - desired_duration))
  let end_time := min (start_time + desired_duration) video_duration
  ((start_time, end_time),
   { f with used_segments := f.used_segments ++ [(start_time, end_time)] })

/-- `MediaSelector._generate_variation`. -/
def generateVariation (r : SelRandom) : Variation :=
  { zoom := r.varUniform 0 (19/20) (23/20)
    position_offset_x := r.varUniform 1 (-(1/10)) (1/10)
    position_offset_y := r.varUniform 2 (-(1/10)) (1/10)
    brightness := r.varUniform 3 (-(1/10)) (1/10)
    flip_horizontal := decide (r.rand < 1/5)
    flip_vertical := false }

/-- The index choice of `select_next`: the pair is (chosen pool index, new
`current_index`).  Sequential mode runs the wraparound loop with the
fallback `files[current_index]` when every attempt was skipped; random
mode short-circuits a one-file pool, otherwise retries up to 50 draws with
the last-resort extra draw. -/
def selectPick (st : MediaSelector) (avoid_file : Option MediaFile)
    (r : SelRandom) : ℕ × ℕ :=
  let len := st.media_files.length
  match st.mode with
  | SelectionMode.SEQUENTIAL =>
      match seqSelectLoop st.media_files st.anti_consecutive avoid_file
          st.current_index len with
      | (some idx, ci) => (idx, ci)
      | (none, ciF) => (ciF, (ciF + 1) % len)
  | SelectionMode.RANDOM =>
      if len = 1 then (0, st.current_index)
      else
        match randSelectLoop st.media_files st.anti_consecutive avoid_file
            r.choice 0 50 with
        | some idx => (idx, st.current_index)
        | none => (r.choice 50 % len, st.current_index)

/-- The bookkeeping tail of `select_next` once an index is picked:
increment `reuse_count`, plan the video segment for video files, attach a
variation when `reuse_count > 1`, store the updated file back into the
pool, `current_index` and `last_selected`. -/
def selectNextCore (st : MediaSelector) (duration : ℚ) (r : SelRandom)
    (pick : ℕ × ℕ) : MediaSelection × MediaSelector :=
  let f0 := st.media_files.getD pick.1 default
  let f1 := { f0 with reuse_count := f0.reuse_count + 1 }
  let segf : Option (ℚ × ℚ) × MediaFile :=
    if f1.type = MediaType.VIDEO then
      let res := planVideoSegment f1 duration r.uniform
      (some res.1, res.2)
    else (none, f1)
  let f2 := segf.2
  let selection : MediaSelection :=
    { file := f2
      duration := duration
      start_time := segf.1.map Prod.fst
      end_time := segf.1.map Prod.snd
      variation := if f2.reuse_count > 1 then some (generateVariation r) else none }
  (selection,
    { st with
        media_files := st.media_files.set pick.1 f2
        current_index := pick.2
        last_selected := some f2 })

/-- `MediaSelector.select_next`.  Raises (`Except.error`) exactly when the
pool is empty. -/
def selectNext (st : MediaSelector) (duration : ℚ)
    (avoid_file : Option MediaFile) (r : SelRandom) :
    Except String (MediaSelection × MediaSelector) :=
  if st.media_files = [] then Except.error ("No media files available")
  else Except.ok (selectNextCore st duration r (selectPick st avoid_file r))

/-- The per-job selector invariant: pool paths are pairwise distinct (one
folder cannot list the same filename twice), the cursor is in range, and
`last_selected` (when set) is a pool member. -/
def SelectorInv (st : MediaSelector) : Prop :=
  (st.media_files.map MediaFile.path).Nodup ∧
  st.current_index < st.media_files.length ∧
  ∀ a, st.last_selected = some a → a ∈ st.media_files

/-! ### Selector lemmas -/

theorem selectNextCore_file_path (st : MediaSelector) (d : ℚ) (r : SelRandom)
    (pick : ℕ × ℕ) :
    ((selectNextCore st d r pick).1.file).path =
      (st.media_files.getD pick.1 default).path := by
  unfold selectNextCore
  dsimp only
  split <;> rfl

theorem selectNextCore_state (st : MediaSelector) (d : ℚ) (r : SelRandom)
    (pick : ℕ × ℕ) :
    (selectNextCore st d r pick).2.media_files =
        st.media_files.set pick.1 ((selectNextCore st d r pick).1.file) ∧
    (selectNextCore st d r pick).2.current_index = pick.2 ∧
    (selectNextCore st d r pick).2.last_selected =
        some ((selectNextCore st d r pick).1.file) ∧
    (selectNextCore st d r pick).2.mode = st.mode ∧
    (selectNextCore st d r pick).2.anti_consecutive = st.anti_consecutive :=
  ⟨rfl, rfl, rfl, rfl, rfl⟩

theorem map_path_set (l : List MediaFile) :
    ∀ (i : ℕ) (x : MediaFile), x.path = (l.getD i default).path →
      (l.set i x).map MediaFile.path = l.map MediaFile.path := by
  induction l with
  | nil => intro i x _; rfl
  | cons a t ih =>
    intro i x h
    cases i with
    | zero =>
      simp only [List.getD_cons_zero] at h
      simp [List.set, h]
    | succ n =>
      simp only [List.getD_cons_succ] at h
      simp [List.set, ih n x h]

theorem mem_set_self (l : List MediaFile) :
    ∀ (i : ℕ) (x : MediaFile), i < l.length → x ∈ l.set i x := by
  induction l with
  | nil => intro i x h; simp at h
  | cons a t ih =>
    intro i x h
    cases i with
    | zero => simp [List.set]
    | succ n =>
      simp only [List.set, List.mem_cons]
      exact Or.inr (ih n x (by simpa using h))

theorem seqSelectLoop_ci_lt (files : List MediaFile) (anti : Bool)
    (avoid : Option MediaFile) (hlen : 0 < files.length) :
    ∀ fuel ci, ci < files.length →
      (seqSelectLoop files anti avoid ci fuel).2 < files.length := by
  intro fuel
  induction fuel with
  | zero => intro ci h; exact h
  | succ n ih =>
    intro ci h
    unfold seqSelectLoop
    dsimp only
    split
    · exact ih _ (Nat.mod_lt _ hlen)
    · exact Nat.mod_lt _ hlen

theorem seqSelectLoop_some_spec (files : List MediaFile) (anti : Bool)
    (avoid : Option MediaFile) :
    ∀ fuel ci idx ci2, ci < files.length →
      seqSelectLoop files anti avoid ci fuel = (some idx, ci2) →
      idx < files.length ∧ shouldSkip anti avoid (files.getD idx default) = false := by
  intro fuel
  induction fuel with
  | zero =>
    intro ci idx ci2 _ he
    exact absurd he (by simp [seqSelectLoop])
  | succ n ih =>
    intro ci idx ci2 h he
    have hlen : 0 < files.length := lt_of_le_of_lt (Nat.zero_le _) h
    unfold seqSelectLoop at he
    dsimp only at he
    split at he
    · exact ih _ _ _ (Nat.mod_lt _ hlen) he
    · rename_i hskip
      simp only [Prod.mk.injEq, Option.some.injEq] at he
      rw [← he.1]
      exact ⟨h, by simpa using hskip⟩

theorem seqSelectLoop_none_spec (files : List MediaFile) (anti : Bool)
    (avoid : Option MediaFile) :
    ∀ fuel ci, ci < files.length →
      (seqSelectLoop files anti avoid ci fuel).1 = none →
      ∀ j, j < fuel →
        shouldSkip anti avoid (files.getD ((ci + j) % files.length) default) = true := by
  intro fuel
  induction fuel with
  | zero => intro ci _ _ j hj; omega
  | succ n ih =>
    intro ci h hn j hj
    have hlen : 0 < files.length := lt_of_le_of_lt (Nat.zero_le _) h
    unfold seqSelectLoop at hn
    dsimp only at hn
    split at hn
    · rename_i hskip
      cases j with
      | zero =>
        rw [Nat.add_zero, Nat.mod_eq_of_lt h]
        exact hskip
      | succ m =>
        have hm := ih ((ci + 1) % files.length) (Nat.mod_lt _ hlen) hn m (by omega)
        rw [Nat.mod_add_mod] at hm
        have harith : ci + 1 + m = ci + (m + 1) := by omega
        rw [harith] at hm
        exact hm
    · simp at hn

theorem randSelectLoop_some_spec (files : List MediaFile) (anti : Bool)
    (avoid : Option MediaFile) (choice : ℕ → ℕ) (hlen : 0 < files.length) :
    ∀ fuel attempts idx,
      randSelectLoop files anti avoid choice attempts fuel = some idx →
      idx < files.length ∧ shouldSkip anti avoid (files.getD idx default) = false := by
  intro fuel
  induction fuel with
  | zero => intro attempts idx he; exact absurd he (by simp [randSelectLoop])
  | succ n ih =>
    intro attempts idx he
    unfold randSelectLoop at he
    dsimp only at he
    split at he
    · exact ih _ _ he
    · rename_i hskip
      simp only [Option.some.injEq] at he
      rw [← he]
      exact ⟨Nat.mod_lt _ hlen, by simpa using hskip⟩

theorem selectPick_lt (st : MediaSelector) (avoid : Option MediaFile) (r : SelRandom)
    (hlen : 0 < st.media_files.length)
    (hci : st.current_index < st.media_files.length) :
    (selectPick st avoid r).1 < st.media_files.length ∧
    (selectPick st avoid r).2 < st.media_files.length := by
  unfold selectPick
  cases hm : st.mode
  · dsimp only
    rcases hres : seqSelectLoop st.media_files st.anti_consecutive avoid
        st.current_index st.media_files.length with ⟨o, ci2⟩
    have hci2 := seqSelectLoop_ci_lt st.media_files st.anti_consecutive avoid hlen
      st.media_files.length st.current_index hci
    rw [hres] at hci2
    cases o with
    | some idx =>
      have hspec := seqSelectLoop_some_spec st.media_files st.anti_consecutive avoid
        st.media_files.length st.current_index idx ci2 hci hres
      exact ⟨hspec.1, hci2⟩
    | none =>
      exact ⟨hci2, Nat.mod_lt _ hlen⟩
  · dsimp only
    split
    · exact ⟨hlen, hci⟩
    · rcases hres : randSelectLoop st.media_files st.anti_consecutive avoid
          r.choice 0 50 with _ | idx
      · exact ⟨Nat.mod_lt _ hlen, hci⟩
      · have hspec := randSelectLoop_some_spec st.media_files st.anti_consecutive avoid
          r.choice hlen 50 0 idx hres
        exact ⟨hspec.1, hci⟩

theorem selectNext_inv_preserved (st : MediaSelector) (d : ℚ)
    (avoid : Option MediaFile) (r : SelRandom) (sel : MediaSelection)
    (st2 : MediaSelector) (hne : st.media_files ≠ [])
    (hInv : SelectorInv st)
    (h : selectNext st d avoid r = Except.ok (sel, st2)) :
    SelectorInv st2 ∧ st2.mode = st.mode ∧
    st2.anti_consecutive = st.anti_consecutive ∧
    st2.media_files.map MediaFile.path = st.media_files.map MediaFile.path ∧
    st2.media_files.length = st.media_files.length ∧
    st2.last_selected = some sel.file := by
  obtain ⟨hnodup, hci, _⟩ := hInv
  have hlen : 0 < st.media_files.length := List.length_pos.2 hne
  unfold selectNext at h
  rw [if_neg hne] at h
  simp only [Except.ok.injEq] at h
  have hsel : (selectNextCore st d r (selectPick st avoid r)).1 = sel :=
    congrArg Prod.fst h
  have hst2 : (selectNextCore st d r (selectPick st avoid r)).2 = st2 :=
    congrArg Prod.snd h
  subst hsel
  subst hst2
  obtain ⟨hfiles2, hci2, hlast2, hmode2, hanti2⟩ :=
    selectNextCore_state st d r (selectPick st avoid r)
  have hpick := selectPick_lt st avoid r hlen hci
  have hpath := selectNextCore_file_path st d r (selectPick st avoid r)
  have hmap : (selectNextCore st d r (selectPick st avoid r)).2.media_files.map
      MediaFile.path = st.media_files.map MediaFile.path := by
    rw [hfiles2]
    exact map_path_set st.media_files _ _ hpath
  have hlen2 : (selectNextCore st d r (selectPick st avoid r)).2.media_files.length =
      st.media_files.length := by
    have hc := congrArg List.length hmap
    simpa using hc
  refine ⟨⟨by rw [hmap]; exact hnodup, ?_, ?_⟩, hmode2, hanti2, hmap, hlen2, hlast2⟩
  · rw [hci2, hlen2]
    exact hpick.2
  · intro a ha
    rw [hlast2] at ha
    simp only [Option.some.injEq] at ha
    rw [hfiles2, ← ha]
    exact mem_set_self st.media_files _ _ hpick.1

/-! ### Selector theorems (claims C2, C7, C8, C9) -/

/-- C2 (amended).  Construction never raises — `_load_media` only logs a
warning when the folder is missing or the scan finds nothing — and
`select_next` raises exactly when the pool is empty, so over a non-empty
pool every `select_next` call returns a `MediaSelection`. -/
theorem selector_construction_never_raises (folderExists : Bool)
    (entries : List DirEntry) (mode : SelectionMode) (anti : Bool)
    (image_formats video_formats : List String)
    (shuffle : List MediaFile → List MediaFile) :
    (∃ st0, mediaSelectorInit folderExists entries mode anti image_formats
        video_formats shuffle = Except.ok st0) ∧
    ∀ (st : MediaSelector) (d : ℚ) (avoid : Option MediaFile) (r : SelRandom),
      (∃ out, selectNext st d avoid r = Except.ok out) ↔ st.media_files ≠ [] := by
  refine ⟨⟨_, rfl⟩, ?_⟩
  intro st d avoid r
  unfold selectNext
  by_cases h : st.media_files = [] <;> simp [h]

/-- C2 counterexample.  Constructing a `MediaSelector` over an existing but
empty folder listing succeeds (`Except.ok`) with an empty pool — the
claimed construction-time exception for an empty pool does not exist. -/
theorem selector_empty_pool_counterexample :
    mediaSelectorInit true [] SelectionMode.SEQUENTIAL true defaultImageFormats
        defaultVideoFormats id =
      Except.ok
        { mode := SelectionMode.SEQUENTIAL
          anti_consecutive := true
          media_files := []
          current_index := 0
          last_selected := none } := rfl

/-- C8.  With a one-file pool and the cursor at its only position,
`select_next` called with `avoid_file` set to that only file terminates
with `Except.ok` and returns a selection referencing the same asset, in
every selection mode (and whatever the anti-consecutive flag). -/
theorem selector_single_pool_degradation (st : MediaSelector) (f : MediaFile)
    (d : ℚ) (r : SelRandom) (hfiles : st.media_files = [f])
    (hci : st.current_index = 0) :
    ∃ sel st2, selectNext st d (some f) r = Except.ok (sel, st2) ∧
      sel.file.path = f.path := by
  have hne : st.media_files ≠ [] := by rw [hfiles]; simp
  refine ⟨(selectNextCore st d r (selectPick st (some f) r)).1,
    (selectNextCore st d r (selectPick st (some f) r)).2, ?_, ?_⟩
  · unfold selectNext
    rw [if_neg hne]
  · rw [selectNextCore_file_path]
    have hlt := (selectPick_lt st (some f) r (by rw [hfiles]; simp)
      (by rw [hfiles, hci]; simp)).1
    rw [hfiles] at hlt
    have h0 : (selectPick st (some f) r).1 = 0 := by
      simpa using hlt
    rw [hfiles, h0]
    rfl

/-- Witness for C8 on a concrete one-image pool. -/
theorem selector_single_pool_degradation_witness :
    ∃ sel st2,
      selectNext
        { mode := SelectionMode.SEQUENTIAL
          anti_consecutive := true
          media_files := [⟨"001.jpg", MediaType.IMAGE, none, [], 0⟩]
          current_index := 0
          last_selected := some ⟨"001.jpg", MediaType.IMAGE, none, [], 0⟩ }
        3 (some ⟨"001.jpg", MediaType.IMAGE, none, [], 0⟩)
        ⟨fun a _ => a, fun _ => 0, fun _ a _ => a, 0⟩ = Except.ok (sel, st2) ∧
      sel.file.path = "001.jpg" :=
  selector_single_pool_degradation _ ⟨"001.jpg", MediaType.IMAGE, none, [], 0⟩ 3
    ⟨fun a _ => a, fun _ => 0, fun _ a _ => a, 0⟩ rfl rfl

theorem getD_eq_get_of_lt (l : List MediaFile) (n : ℕ) (h : n < l.length) :
    l.getD n default = l[n] := by
  rw [List.getD_eq_getElem?_getD, List.getElem?_eq_getElem h]
  rfl

theorem nodup_path_getD_ne (files : List MediaFile)
    (hnodup : (files.map MediaFile.path).Nodup) {i j : ℕ}
    (hi : i < files.length) (hj : j < files.length) (hij : i ≠ j) :
    (files.getD i default).path ≠ (files.getD j default).path := by
  rw [getD_eq_get_of_lt _ _ hi, getD_eq_get_of_lt _ _ hj]
  intro heq
  have hmi : i < (files.map MediaFile.path).length := by simpa using hi
  have hmj : j < (files.map MediaFile.path).length := by simpa using hj
  have hmeq : (files.map MediaFile.path)[i] = (files.map MediaFile.path)[j] := by
    simpa [List.getElem_map] using heq
  exact hij (hnodup.getElem_inj_iff.1 hmeq)

/-- The sequential anti-consecutive guarantee for one call: with a pool of
at least two path-distinct files, a valid cursor and `avoid_file` a pool
member, the chosen file differs (by path) from `avoid_file`. -/
theorem selectNext_seq_avoids (st : MediaSelector) (d : ℚ) (a : MediaFile)
    (r : SelRandom) (hmode : st.mode = SelectionMode.SEQUENTIAL)
    (hanti : st.anti_consecutive = true) (hlen : 1 < st.media_files.length)
    (hnodup : (st.media_files.map MediaFile.path).Nodup)
    (hci : st.current_index < st.media_files.length)
    (hmem : a ∈ st.media_files) :
    ((selectNextCore st d r (selectPick st (some a) r)).1.file).path ≠ a.path := by
  have hlen0 : 0 < st.media_files.length := by omega
  rw [selectNextCore_file_path]
  obtain ⟨ia, hia, haeq⟩ := List.mem_iff_getElem.1 hmem
  unfold selectPick
  simp only [hmode]
  rcases hres : seqSelectLoop st.media_files st.anti_consecutive (some a)
      st.current_index st.media_files.length with ⟨o, ci2⟩
  cases o with
  | some idx =>
    have hspec := seqSelectLoop_some_spec st.media_files st.anti_consecutive (some a)
      st.media_files.length st.current_index idx ci2 hci hres
    have hcand : st.media_files.getD idx default ≠ a := by
      have hsk := hspec.2
      rw [hanti] at hsk
      simpa [shouldSkip] using hsk
    by_cases hidx : idx = ia
    · exfalso
      apply hcand
      rw [hidx, getD_eq_get_of_lt _ _ hia]
      exact haeq
    · have hne2 := nodup_path_getD_ne st.media_files hnodup hspec.1 hia hidx
      rw [getD_eq_get_of_lt _ _ hia, haeq] at hne2
      exact hne2
  | none =>
    exfalso
    have hnone : (seqSelectLoop st.media_files st.anti_consecutive (some a)
        st.current_index st.media_files.length).1 = none := by rw [hres]
    have hall := seqSelectLoop_none_spec st.media_files st.anti_consecutive (some a)
      st.media_files.length st.current_index hci hnone
    have hval : ∀ m, m < st.media_files.length →
        st.media_files.getD m default = a := by
      intro m hm
      have hj : (m + (st.media_files.length - st.current_index)) %
          st.media_files.length < st.media_files.length := Nat.mod_lt _ hlen0
      have hskip := hall _ hj
      have hsum : st.current_index + (m + (st.media_files.length - st.current_index)) =
          m + st.media_files.length := by omega
      have hidx : (st.current_index + (m + (st.media_files.length - st.current_index)) %
          st.media_files.length) % st.media_files.length = m := by
        rw [Nat.add_mod_mod, hsum, Nat.add_mod_right, Nat.mod_eq_of_lt hm]
      rw [hidx, hanti] at hskip
      simpa [shouldSkip] using hskip
    have hia2 : st.media_files.getD ia default = a := hval ia hia
    have hib0 : (if ia = 0 then 1 else 0) < st.media_files.length := by
      split <;> omega
    have hibne : (if ia = 0 then 1 else 0) ≠ ia := by
      split <;> omega
    have hib2 : st.media_files.getD (if ia = 0 then 1 else 0) default = a :=
      hval _ hib0
    exact nodup_path_getD_ne st.media_files hnodup hib0 hia hibne
      (by rw [hia2, hib2])

/-- The engine-shaped sequence of `select_next` calls: each call passes
`avoid_file = last_selected if anti_consecutive else None`
(engine.py `_process_clip`), threading the selector state; the call
counter `k` indexes the per-call random draws.  An empty pool stops the
sequence (the engine catches the per-clip exception). -/
def selectSequence (rs : ℕ → SelRandom) :
    MediaSelector → ℕ → List ℚ → List MediaSelection × MediaSelector
  | st, _, [] => ([], st)
  | st, k, d :: rest =>
      match selectNext st d
          (if st.anti_consecutive then st.last_selected else none) (rs k) with
      | Except.error _ => ([], st)
      | Except.ok out =>
          let res := selectSequence rs out.2 (k + 1) rest
          (out.1 :: res.1, res.2)

/-- Strengthened induction for the anti-consecutive property: the produced
selections form a path-distinct chain, and the first of them avoids the
incoming `last_selected`. -/
theorem selectSequence_chain (rs : ℕ → SelRandom) (ds : List ℚ) :
    ∀ (st : MediaSelector) (k : ℕ),
      st.mode = SelectionMode.SEQUENTIAL → st.anti_consecutive = true →
      1 < st.media_files.length → SelectorInv st →
      List.Chain' (fun s1 s2 => s1.file.path ≠ s2.file.path)
        (selectSequence rs st k ds).1 ∧
      (∀ s, ((selectSequence rs st k ds).1).head? = some s →
        ∀ a, st.last_selected = some a → s.file.path ≠ a.path) := by
  induction ds with
  | nil =>
    intro st k _ _ _ _
    exact ⟨List.chain'_nil, by intro s hs; simp [selectSequence] at hs⟩
  | cons d rest ih =>
    intro st k hmode hanti hlen hInv
    have hne : st.media_files ≠ [] := by
      intro h
      rw [h] at hlen
      simp at hlen
    have hok : selectNext st d
        (if st.anti_consecutive then st.last_selected else none) (rs k) =
        Except.ok (selectNextCore st d (rs k)
          (selectPick st (if st.anti_consecutive then st.last_selected else none)
            (rs k))) := by
      unfold selectNext
      rw [if_neg hne]
    have hseq : selectSequence rs st k (d :: rest) =
        ((selectNextCore st d (rs k)
            (selectPick st (if st.anti_consecutive then st.last_selected else none)
              (rs k))).1 ::
          (selectSequence rs (selectNextCore st d (rs k)
            (selectPick st (if st.anti_consecutive then st.last_selected else none)
              (rs k))).2 (k + 1) rest).1,
         (selectSequence rs (selectNextCore st d (rs k)
            (selectPick st (if st.anti_consecutive then st.last_selected else none)
              (rs k))).2 (k + 1) rest).2) := by
      conv_lhs => rw [selectSequence, hok]
    have hInvPres := selectNext_inv_preserved st d
      (if st.anti_consecutive then st.last_selected else none) (rs k) _ _ hne hInv
      (by rw [hok])
    obtain ⟨hInv2, hmode2, hanti2, _, hlen2, hlast2⟩ := hInvPres
    have hih := ih _ (k + 1) (by rw [hmode2]; exact hmode)
      (by rw [hanti2]; exact hanti) (by rw [hlen2]; exact hlen) hInv2
    constructor
    · rw [hseq]
      rw [List.chain'_cons']
      refine ⟨?_, hih.1⟩
      intro s2 hs2
      have hne2 := hih.2 s2 hs2 _ hlast2
      exact Ne.symm hne2
    · intro s hs a ha
      rw [hseq] at hs
      simp only [List.head?_cons, Option.some.injEq] at hs
      subst hs
      have havoid : (if st.anti_consecutive then st.last_selected else none) = some a := by
        rw [hanti, ha]
        simp
      have hamem := hInv.2.2 a ha
      have hres := selectNext_seq_avoids st d a (rs k) hmode hanti hlen hInv.1
        hInv.2.1 hamem
      rw [havoid]
      exact hres

/-- C7.  In sequential mode with `anti_consecutive` enabled, a pool of
more than one (path-distinct) asset and a valid selector state, the
sequence of `select_next` calls that passes the previously selected asset
as `avoid_file` (as the engine does) never returns the same asset on two
consecutive calls. -/
theorem selector_anti_consecutive (st : MediaSelector) (rs : ℕ → SelRandom)
    (ds : List ℚ) (hmode : st.mode = SelectionMode.SEQUENTIAL)
    (hanti : st.anti_consecutive = true) (hlen : 1 < st.media_files.length)
    (hInv : SelectorInv st) :
    List.Chain' (fun s1 s2 => s1.file.path ≠ s2.file.path)
      (selectSequence rs st 0 ds).1 :=
  (selectSequence_chain rs ds st 0 hmode hanti hlen hInv).1

/-- Witness for C7: a three-image pool and ten calls. -/
theorem selector_anti_consecutive_witness :
    List.Chain' (fun s1 s2 => s1.file.path ≠ s2.file.path)
      (selectSequence (fun _ => ⟨fun a _ => a, fun _ => 0, fun _ a _ => a, 0⟩)
        { mode := SelectionMode.SEQUENTIAL
          anti_consecutive := true
          media_files := [⟨"001.jpg", MediaType.IMAGE, none, [], 0⟩,
            ⟨"002.jpg", MediaType.IMAGE, none, [], 0⟩,
            ⟨"003.jpg", MediaType.IMAGE, none, [], 0⟩]
          current_index := 0
          last_selected := none }
        0 [3, 3, 3, 3, 3, 3, 3, 3, 3, 3]).1 :=
  selector_anti_consecutive _ _ _ rfl rfl (by simp)
    ⟨by simp, by simp, by intro a ha; exact absurd ha (by simp)⟩

/-- The spec-side description of the gaps scanned by
`_find_available_video_segment`: walking the sorted used intervals from
`last_end` (initially 0), each interval contributes the gap
`(gap start, gap length)` before it, and the trailing gap after the last
interval is included. -/
def gapsList (total : ℚ) : ℚ → List (ℚ × ℚ) → List (ℚ × ℚ)
  | last_end, [] => [(last_end, total - last_end)]
  | last_end, (s, e) :: rest => (last_end, s - last_end) :: gapsList total e rest

/-- The code's gap scan returns exactly the start of the first gap (in the
`gapsList` sense, trailing gap included) of length at least `needed`,
whenever such a gap exists — independently of the random fallback `u`. -/
theorem findGapLoop_first_fit (needed total : ℚ) (u : ℚ → ℚ → ℚ) :
    ∀ (l : List (ℚ × ℚ)) (le : ℚ) (g : ℚ × ℚ),
      (gapsList total le l).find? (fun g2 => decide (needed ≤ g2.2)) = some g →
      (match findGapLoop needed le l with
       | (some gap_start, _) => gap_start
       | (none, last_end) =>
           if total - last_end ≥ needed then last_end
           else u 0 (max 0 (total - needed))) = g.1 := by
  intro l
  induction l with
  | nil =>
    intro le g hg
    simp only [gapsList, List.find?] at hg
    rcases hfit : decide (needed ≤ total - le) with _ | _
    · rw [hfit] at hg
      simp at hg
    · rw [hfit] at hg
      simp only [Option.some.injEq] at hg
      have hcond : total - le ≥ needed := by
        have := of_decide_eq_true hfit
        exact this
      simp only [findGapLoop]
      rw [if_pos hcond, ← hg]
  | cons seg rest ih =>
    intro le g hg
    rcases seg with ⟨s, e⟩
    simp only [gapsList, List.find?] at hg
    rcases hfit : decide (needed ≤ s - le) with _ | _
    · rw [hfit] at hg
      have hcond : ¬ (s - le ≥ needed) := by
        have := of_decide_eq_false hfit
        exact this
      simp only [findGapLoop]
      rw [if_neg hcond]
      exact ih e g hg
    · rw [hfit] at hg
      simp only [Option.some.injEq] at hg
      have hcond : s - le ≥ needed := of_decide_eq_true hfit
      simp only [findGapLoop]
      rw [if_pos hcond, ← hg]

/-- C9.  On a reuse of a video asset with enough aggregate unused duration
and some gap (trailing gap included) of length at least `needed`,
`_plan_video_segment` deterministically starts at the first such gap
(first-fit, no random draw: the result does not depend on `u`) and appends
the `(start, start+needed)` interval clamped to the total duration to
`used_segments`. -/
theorem video_segment_first_fit (f : MediaFile) (needed : ℚ) (g : ℚ × ℚ)
    (hne : f.used_segments ≠ [])
    (havail : f.duration.getD 30 - segmentsLength f.used_segments ≥ needed)
    (hgap : (gapsList (f.duration.getD 30) 0 (sortSegments f.used_segments)).find?
        (fun g2 => decide (needed ≤ g2.2)) = some g) :
    ∀ u : ℚ → ℚ → ℚ,
      planVideoSegment f needed u =
        ((g.1, min (g.1 + needed) (f.duration.getD 30)),
         { f with used_segments := f.used_segments ++
            [(g.1, min (g.1 + needed) (f.duration.getD 30))] }) := by
  intro u
  have hstart : findAvailableVideoSegment (f.duration.getD 30) needed
      f.used_segments u = g.1 := by
    unfold findAvailableVideoSegment
    exact findGapLoop_first_fit needed (f.duration.getD 30) u
      (sortSegments f.used_segments) 0 g hgap
  unfold planVideoSegment
  dsimp only
  rw [if_neg hne, if_pos havail, hstart]

/-- Witness for C9: a 20 s video with one used interval `(0, 4)`; the
first fitting gap for a 3 s request is the trailing gap starting at 4. -/
theorem video_segment_first_fit_witness :
    planVideoSegment ⟨"v.mp4", MediaType.VIDEO, some 20, [(0, 4)], 1⟩ 3
        (fun a _ => a) =
      ((4, 7), ⟨"v.mp4", MediaType.VIDEO, some 20, [(0, 4), (4, 7)], 1⟩) := by
  have hsorted : sortSegments [((0 : ℚ), (4 : ℚ))] = [(0, 4)] := by
    unfold sortSegments
    exact List.mergeSort_of_sorted (by simp)
  have hgl : gapsList (20 : ℚ) 0 [((0 : ℚ), (4 : ℚ))] = [(0, 0 - 0), (4, 20 - 4)] := by
    norm_num [gapsList]
  have hd1 : decide ((3 : ℚ) ≤ 0 - 0) = false := by norm_num
  have hd2 : decide ((3 : ℚ) ≤ 20 - 4) = true := by norm_num
  have hgap : (gapsList ((20 : ℚ)) 0
      (sortSegments [((0 : ℚ), (4 : ℚ))])).find?
      (fun g2 => decide ((3 : ℚ) ≤ g2.2)) = some (4, 20 - 4) := by
    rw [hsorted, hgl]
    simp only [List.find?, hd1, hd2]
  have h := video_segment_first_fit ⟨"v.mp4", MediaType.VIDEO, some 20, [(0, 4)], 1⟩ 3
    (4, 20 - 4) (by simp)
    (by norm_num [segmentsLength])
    hgap (fun a _ => a)
  rw [h]
  norm_num

/-! ## Job orchestration engine (src/core/engine.py)

External collaborators — the filesystem listing, `ffprobe`
(`get_media_info`), the per-clip encoders (`encode_image_clip` /
`encode_video_clip`, collapsed into one success oracle indexed by clip
index since the engine treats both results identically) and
`concatenate_clips` — are oracle values carried in a `JobEnv`.
Wall-clock timestamps (`time.time()`, `start_time` / `end_time` /
`processing_time`) are not modelled; the nested statistics dictionaries of
`result.metrics` are abstracted to their two numeric components. -/

/-- `JobStatus` enum. -/
inductive JobStatus
  | PENDING
  | VALIDATING
  | PLANNING
  | PROCESSING
  | FINALIZING
  | COMPLETED
  | FAILED
  | CANCELLED
deriving DecidableEq, Repr

/-- The numeric core of `result.metrics` (`audio_duration` and
`clips_count`; `media_stats` and `plan_summary` are abstracted away). -/
structure JobMetrics where
  audio_duration : ℚ
  clips_count : ℕ
deriving DecidableEq, Repr

/-- `JobResult` dataclass (without the wall-clock fields). -/
structure JobResult where
  audio_file : String
  output_file : String
  status : JobStatus
  duration : ℚ := 0
  clips_processed : ℕ := 0
  error_message : String := ""
  warnings : List String := []
  metrics : Option JobMetrics := none
deriving DecidableEq, Repr

/-- The engine-relevant fields of the `Config` dataclass (loader.py),
with their defaults; the video/codec fields feed only the abstracted
encode oracle. -/
structure Config where
  media_dir : String := "examples/media"
  output_dir : String := "output"
  min_clip_duration : ℚ := 2
  max_clip_duration : ℚ := 5
  overlap_duration : ℚ := 1/2
  soft_budget_tolerance : ℚ := 1/4
  selection_mode : String := "sequential"
  anti_consecutive : Bool := true
  warn_insufficient_media : Bool := true
  prompt_on_shortage : Bool := true
  min_media_files : ℕ := 3

/-- The dictionary returned by `VideoEngine._validate_inputs`. -/
structure ValidationResult where
  valid : Bool
  message : String
  prompt_user : Bool
  warnings : List String
deriving DecidableEq, Repr

/-- The external world of one `process_audio_file` job: filesystem facts,
the sorted media-folder listing, the probe / encode / concatenate
oracles (`Except.error` models a raised exception), the optional user
confirmation callback and the random oracles.  A `concat` argument is the
list of temp-clip identifiers (clip indices, from which the temp file
names `clip_{index:04d}.mp4` are derived). -/
structure JobEnv where
  audio_path : String
  audio_name : String
  audio_exists : Bool
  media_folder_exists : Bool
  media_entries : List DirEntry
  probe : Except String ℚ
  encode : ℕ → Except String Bool
  concat : List ℕ → Except String Bool
  confirm : Option (String → Bool)
  draw : ℕ → ℚ → ℚ → ℚ
  selRandom : ℕ → SelRandom
  shuffle : List MediaFile → List MediaFile

/-- `VideoEngine._validate_inputs`. -/
def validateInputs (env : JobEnv) (config : Config) : ValidationResult :=
  if ¬ env.audio_exists then
    { valid := false
      message := "Audio file not found: " ++ env.audio_path
      prompt_user := false
      warnings := [] }
  else if ¬ env.media_folder_exists then
    { valid := false
      message := "Media folder not found: " ++ config.media_dir ++ "/" ++ env.audio_name
      prompt_user := false
      warnings := [] }
  else
    let media_count := (env.media_entries.filter DirEntry.isFile).length
    if media_count = 0 then
      { valid := false
        message := "No media files found in: " ++ config.media_dir ++ "/" ++ env.audio_name
        prompt_user := false
        warnings := [] }
    else if config.warn_insufficient_media ∧ media_count < config.min_media_files then
      let warning_msg := "Warning: Only " ++ toString media_count ++
        " media file(s) found. Recommended minimum: " ++
        toString config.min_media_files ++ ". Media will be reused with variations."
      if config.prompt_on_shortage then
        { valid := false
          message := warning_msg ++ "\n\nDo you want to continue?"
          prompt_user := true
          warnings := [warning_msg] }
      else
        { valid := true, message := "", prompt_user := false, warnings := [warning_msg] }
    else
      { valid := true, message := "", prompt_user := false, warnings := [] }

/-- `SelectionMode.SEQUENTIAL if job_config.selection_mode == "sequential"
else SelectionMode.RANDOM`. -/
def jobMode (config : Config) : SelectionMode :=
  if config.selection_mode = "sequential" then SelectionMode.SEQUENTIAL
  else SelectionMode.RANDOM

/-- The `DurationPlanner` the engine constructs for a probed duration. -/
def jobPlanner (config : Config) (audio_duration : ℚ) : DurationPlanner :=
  { audio_duration := audio_duration
    min_clip := config.min_clip_duration
    max_clip := config.max_clip_duration
    overlap := config.overlap_duration
    tolerance := config.soft_budget_tolerance }

/-- The `MediaSelector` the engine constructs for a job (default formats). -/
def jobSelector (env : JobEnv) (config : Config) : MediaSelector :=
  mediaSelectorState env.media_folder_exists env.media_entries (jobMode config)
    config.anti_consecutive defaultImageFormats defaultVideoFormats env.shuffle

/-- The clip plans of a job whose probe returned `audio_duration`. -/
def jobPlans (env : JobEnv) (config : Config) (audio_duration : ℚ) : List ClipPlan :=
  planClips (jobPlanner config audio_duration) env.draw

/-- `VideoEngine._process_clip`: select media (passing
`avoid_file = last_selected if anti_consecutive else None`), then encode;
every exception inside is caught and turned into `None` (clip skipped),
with selector-state mutations that already happened kept.  Returns the
temp-clip identifier (the clip index) on success. -/
def processClip (config : Config) (env : JobEnv) (ms : MediaSelector)
    (clip_plan : ClipPlan) (clip_index : ℕ) : Option ℕ × MediaSelector :=
  match selectNext ms clip_plan.duration
      (if config.anti_consecutive then ms.last_selected else none)
      (env.selRandom clip_index) with
  | Except.error _ => (none, ms)
  | Except.ok out =>
      match env.encode clip_index with
      | Except.error _ => (none, out.2)
      | Except.ok true => (some clip_index, out.2)
      | Except.ok false => (none, out.2)

/-- The processing-phase loop of `process_audio_file`: clips in plan
order, collecting the successfully encoded temp-clip identifiers. -/
def processClipsLoop (config : Config) (env : JobEnv) :
    MediaSelector → ℕ → List ClipPlan → List ℕ × MediaSelector
  | ms, _, [] => ([], ms)
  | ms, i, clip_plan :: rest =>
      let step := processClip config env ms clip_plan i
      let res := processClipsLoop config env step.2 (i + 1) rest
      (match step.1 with
       | some clip_file => clip_file :: res.1
       | none => res.1,
       res.2)

/-- The body of `process_audio_file` from the probe call on (after the
validation branching).  An `Except.error` carries the exception message
together with the result object as already mutated — the Python `except`
clause returns the same `result` instance. -/
def processAfterValidation (env : JobEnv) (config : Config) (r2 : JobResult) :
    Except (String × JobResult) JobResult :=
  match env.probe with
  | Except.error msg => Except.error (msg, r2)
  | Except.ok audio_duration =>
    if audio_duration = 0 then
      Except.ok { r2 with status := JobStatus.FAILED
                          error_message := "Could not determine audio duration" }
    else
      let r3 := { r2 with duration := audio_duration, status := JobStatus.PLANNING }
      match mediaSelectorInit env.media_folder_exists env.media_entries (jobMode config)
          config.anti_consecutive defaultImageFormats defaultVideoFormats env.shuffle with
      | Except.error msg => Except.error (msg, r3)
      | Except.ok ms =>
        if config.min_clip_duration > config.max_clip_duration then
          Except.error ("min_clip cannot be greater than max_clip", r3)
        else
          let clip_plans := planClips (jobPlanner config audio_duration) env.draw
          let r4 := { r3 with clips_processed := clip_plans.length }
          let r5 := { r4 with status := JobStatus.PROCESSING }
          let loopRes := processClipsLoop config env ms 0 clip_plans
          if loopRes.1 = [] then
            Except.ok { r5 with status := JobStatus.FAILED
                                error_message := "No clips were successfully processed" }
          else
            let r6 := { r5 with
              status := JobStatus.FINALIZING
              output_file := config.output_dir ++ "/" ++ env.audio_name ++ "_final.mp4" }
            match env.concat loopRes.1 with
            | Except.error msg => Except.error (msg, r6)
            | Except.ok false =>
                Except.ok { r6 with status := JobStatus.FAILED
                                    error_message := "Failed to concatenate clips" }
            | Except.ok true =>
                Except.ok { r6 with
                  status := JobStatus.COMPLETED
                  metrics := some ⟨audio_duration, clip_plans.length⟩ }

/-- The `JobResult` created at the top of `process_audio_file`. -/
def initialJobResult (env : JobEnv) : JobResult :=
  { audio_file := env.audio_path, output_file := "", status := JobStatus.PENDING }

/-- The `try` body of `process_audio_file`: validation phase with the
warning / confirmation branching, then `processAfterValidation`. -/
def processAudioFileBody (env : JobEnv) (config : Config) :
    Except (String × JobResult) JobResult :=
  let r1 := { initialJobResult env with status := JobStatus.VALIDATING }
  let v := validateInputs env config
  if v.valid then
    processAfterValidation env config { r1 with warnings := r1.warnings ++ v.warnings }
  else
    match env.confirm, v.prompt_user with
    | some cb, true =>
        if cb v.message then
          processAfterValidation env config
            { r1 with warnings := (r1.warnings ++ [v.message]) ++ v.warnings }
        else
          Except.ok { r1 with
            status := JobStatus.CANCELLED
            error_message := "User cancelled due to validation warning" }
    | some _, false =>
        Except.ok { r1 with status := JobStatus.FAILED, error_message := v.message }
    | none, _ =>
        Except.ok { r1 with status := JobStatus.FAILED, error_message := v.message }

/-- The top-level `except Exception` clause of `process_audio_file`: any
exception is recorded into `error_message` of the result as built so far
and the status becomes `FAILED`. -/
def runCatch (x : Except (String × JobResult) JobResult) : JobResult :=
  match x with
  | Except.ok r => r
  | Except.error me => { me.2 with status := JobStatus.FAILED, error_message := me.1 }

/-- `VideoEngine.process_audio_file`. -/
def processAudioFile (env : JobEnv) (config : Config) : JobResult :=
  runCatch (processAudioFileBody env config)

/-- `VideoEngine.batch_process`: a missing audio directory or an empty
listing yields `[]`; otherwise the single-file pipeline runs
independently per found audio file, in order. -/
def batchProcess (audioDirExists : Bool) (audio_files : List JobEnv)
    (config : Config) : List JobResult :=
  if ¬ audioDirExists then []
  else
    match audio_files with
    | [] => []
    | _ => audio_files.map (fun env => processAudioFile env config)

/-- Whether the encode oracle reports success for clip `i` (no exception,
`True` result). -/
def encodeSucceeds (env : JobEnv) (i : ℕ) : Bool :=
  match env.encode i with
  | Except.ok true => true
  | _ => false

/-- The job reaches the planning/processing phases: validation either
passed outright or the shortage prompt was accepted by the callback. -/
def PassesValidation (env : JobEnv) (config : Config) : Prop :=
  (validateInputs env config).valid = true ∨
  ((validateInputs env config).prompt_user = true ∧
    ∃ cb, env.confirm = some cb ∧ cb (validateInputs env config).message = true)

/-! ### Engine lemmas -/

theorem selectNext_ok_of_ne (st : MediaSelector) (d : ℚ)
    (avoid : Option MediaFile) (r : SelRandom) (hne : st.media_files ≠ []) :
    selectNext st d avoid r =
      Except.ok (selectNextCore st d r (selectPick st avoid r)) := by
  unfold selectNext
  rw [if_neg hne]

theorem selectNextCore_len (st : MediaSelector) (d : ℚ) (r : SelRandom)
    (pick : ℕ × ℕ) :
    (selectNextCore st d r pick).2.media_files.length = st.media_files.length := by
  obtain ⟨hfiles, _, _, _, _⟩ := selectNextCore_state st d r pick
  rw [hfiles, List.length_set]

/-- With a non-empty pool, the processing loop collects exactly the clip
indices whose encode succeeded, in order. -/
theorem processClipsLoop_files (config : Config) (env : JobEnv) :
    ∀ (plans : List ClipPlan) (ms : MediaSelector) (i : ℕ), ms.media_files ≠ [] →
      (processClipsLoop config env ms i plans).1 =
        (List.range' i plans.length).filter (encodeSucceeds env) := by
  intro plans
  induction plans with
  | nil => intro ms i _; rfl
  | cons plan rest ih =>
    intro ms i hne
    have hok := selectNext_ok_of_ne ms plan.duration
      (if config.anti_consecutive then ms.last_selected else none)
      (env.selRandom i) hne
    have hne2 : (selectNextCore ms plan.duration (env.selRandom i)
        (selectPick ms (if config.anti_consecutive then ms.last_selected else none)
          (env.selRandom i))).2.media_files ≠ [] :=
      List.length_pos.1 (by rw [selectNextCore_len]; exact List.length_pos.2 hne)
    have hrange : List.range' i (rest.length + 1) = i :: List.range' (i + 1) rest.length := rfl
    unfold processClipsLoop processClip
    rw [hok]
    dsimp only
    rcases henc : env.encode i with msg | b
    · have hsucc : encodeSucceeds env i = false := by simp [encodeSucceeds, henc]
      rw [List.length_cons, hrange, List.filter_cons, hsucc]
      dsimp only
      exact ih _ (i + 1) hne2
    · cases b
      · have hsucc : encodeSucceeds env i = false := by simp [encodeSucceeds, henc]
        rw [List.length_cons, hrange, List.filter_cons, hsucc]
        dsimp only
        exact ih _ (i + 1) hne2
      · have hsucc : encodeSucceeds env i = true := by simp [encodeSucceeds, henc]
        rw [List.length_cons, hrange, List.filter_cons, hsucc]
        dsimp only
        rw [ih _ (i + 1) hne2]
        simp

/-- With an empty pool every `select_next` raises, the per-clip handler
swallows the exception, and no clip file is produced. -/
theorem processClipsLoop_empty (config : Config) (env : JobEnv) :
    ∀ (plans : List ClipPlan) (i : ℕ) (ms : MediaSelector), ms.media_files = [] →
      (processClipsLoop config env ms i plans).1 = [] := by
  intro plans
  induction plans with
  | nil => intro i ms _; rfl
  | cons plan rest ih =>
    intro i ms hempty
    have herr : selectNext ms plan.duration
        (if config.anti_consecutive then ms.last_selected else none)
        (env.selRandom i) = Except.error ("No media files available") := by
      unfold selectNext
      rw [if_pos hempty]
    unfold processClipsLoop processClip
    rw [herr]
    dsimp only
    exact ih (i + 1) ms hempty

/-- Under `PassesValidation`, `process_audio_file` proceeds past the
validation phase (with some warning bookkeeping `r2`). -/
theorem processAudioFile_eq_afterValidation (env : JobEnv) (config : Config)
    (h : PassesValidation env config) :
    ∃ r2 : JobResult,
      processAudioFile env config = runCatch (processAfterValidation env config r2) := by
  unfold processAudioFile processAudioFileBody
  dsimp only
  by_cases hval : (validateInputs env config).valid = true
  · rw [if_pos hval]
    exact ⟨_, rfl⟩
  · rw [if_neg hval]
    rcases h with h | ⟨hprompt, cb, hcb, hacc⟩
    · exact absurd h hval
    · rw [hcb, hprompt]
      dsimp only
      rw [if_pos hacc]
      exact ⟨_, rfl⟩

/-- After a successful probe and planner construction, `clips_processed`
is pinned to the planned clip count in every later branch. -/
theorem afterValidation_clips (env : JobEnv) (config : Config) (d : ℚ)
    (r2 : JobResult) (hprobe : env.probe = Except.ok d) (hd : ¬ (d = 0))
    (hmm : ¬ (config.min_clip_duration > config.max_clip_duration)) :
    (runCatch (processAfterValidation env config r2)).clips_processed =
      (jobPlans env config d).length := by
  unfold processAfterValidation
  rw [hprobe]
  dsimp only
  rw [if_neg hd]
  simp only [mediaSelectorInit]
  rw [if_neg hmm]
  split
  · simp [runCatch, jobPlans]
  · split
    · simp [runCatch, jobPlans]
    · simp [runCatch, jobPlans]
    · simp [runCatch, jobPlans]

/-- The status outcome of the processing/finalization phases as a function
of the successful clip set and the concatenation outcome. -/
theorem afterValidation_status (env : JobEnv) (config : Config) (d : ℚ)
    (r2 : JobResult) (hprobe : env.probe = Except.ok d) (hd : ¬ (d = 0))
    (hmm : ¬ (config.min_clip_duration > config.max_clip_duration))
    (hpool : (jobSelector env config).media_files ≠ []) :
    ((List.range' 0 (jobPlans env config d).length).filter (encodeSucceeds env) = [] →
      (runCatch (processAfterValidation env config r2)).status = JobStatus.FAILED) ∧
    (∀ b, (List.range' 0 (jobPlans env config d).length).filter (encodeSucceeds env) ≠ [] →
      env.concat ((List.range' 0 (jobPlans env config d).length).filter
        (encodeSucceeds env)) = Except.ok b →
      (runCatch (processAfterValidation env config r2)).status =
        (if b then JobStatus.COMPLETED else JobStatus.FAILED)) ∧
    (∀ msg, (List.range' 0 (jobPlans env config d).length).filter (encodeSucceeds env) ≠ [] →
      env.concat ((List.range' 0 (jobPlans env config d).length).filter
        (encodeSucceeds env)) = Except.error msg →
      (runCatch (processAfterValidation env config r2)).status = JobStatus.FAILED) := by
  simp only [jobSelector] at hpool
  have hloop := processClipsLoop_files config env (planClips (jobPlanner config d) env.draw)
    (mediaSelectorState env.media_folder_exists env.media_entries (jobMode config)
      config.anti_consecutive defaultImageFormats defaultVideoFormats env.shuffle)
    0 hpool
  unfold processAfterValidation
  rw [hprobe]
  dsimp only
  rw [if_neg hd]
  simp only [mediaSelectorInit]
  rw [if_neg hmm]
  simp only [jobPlans]
  rw [hloop]
  by_cases hsucc : (List.range' 0 (planClips (jobPlanner config d) env.draw).length).filter
      (encodeSucceeds env) = []
  · rw [if_pos hsucc]
    refine ⟨fun _ => by simp [runCatch], ?_, ?_⟩
    · intro b hne _
      exact absurd hsucc hne
    · intro msg hne _
      exact absurd hsucc hne
  · rw [if_neg hsucc]
    rcases hc : env.concat ((List.range' 0 (planClips (jobPlanner config d)
        env.draw).length).filter (encodeSucceeds env)) with msg | b
    · refine ⟨fun h => absurd h hsucc, ?_, ?_⟩
      · intro b _ hb
        exact absurd hb (by simp)
      · intro m _ _
        simp [runCatch]
    · refine ⟨fun h => absurd h hsucc, ?_, ?_⟩
      · intro b2 _ hb
        simp only [Except.ok.injEq] at hb
        subst hb
        cases b <;> simp [runCatch]
      · intro m _ hm
        exact absurd hm (by simp)

/-! ### Engine theorems (claims C3, C4, C10) -/

/-- C3 (amended).  For a job that reaches processing over a non-empty pool
with `k` planned clips: if all `k` encodes fail the job ends `FAILED`;
if at least one succeeds, exactly the successful clips (in order) are
handed to concatenation, and the job ends `COMPLETED` when concatenation
succeeds and `FAILED` when it fails — a single clip failure never aborts
the job. -/
theorem partial_failure_tolerance (env : JobEnv) (config : Config) (d : ℚ)
    (hpass : PassesValidation env config)
    (hprobe : env.probe = Except.ok d) (hd : ¬ (d = 0))
    (hmm : ¬ (config.min_clip_duration > config.max_clip_duration))
    (hpool : (jobSelector env config).media_files ≠ []) :
    ((List.range' 0 (jobPlans env config d).length).filter (encodeSucceeds env) = [] →
      (processAudioFile env config).status = JobStatus.FAILED) ∧
    (∀ b, (List.range' 0 (jobPlans env config d).length).filter (encodeSucceeds env) ≠ [] →
      env.concat ((List.range' 0 (jobPlans env config d).length).filter
        (encodeSucceeds env)) = Except.ok b →
      (processAudioFile env config).status =
        (if b then JobStatus.COMPLETED else JobStatus.FAILED)) := by
  obtain ⟨r2, heq⟩ := processAudioFile_eq_afterValidation env config hpass
  rw [heq]
  obtain ⟨h1, h2, _⟩ := afterValidation_status env config d r2 hprobe hd hmm hpool
  exact ⟨h1, h2⟩

/-- C10.  For every job that reaches the processing phase (whatever the
encode outcomes, the pool contents and the assembly outcome), the returned
`clips_processed` equals the number of planned clips. -/
theorem clips_processed_counts_planned (env : JobEnv) (config : Config) (d : ℚ)
    (hpass : PassesValidation env config)
    (hprobe : env.probe = Except.ok d) (hd : ¬ (d = 0))
    (hmm : ¬ (config.min_clip_duration > config.max_clip_duration)) :
    (processAudioFile env config).clips_processed = (jobPlans env config d).length := by
  obtain ⟨r2, heq⟩ := processAudioFile_eq_afterValidation env config hpass
  rw [heq]
  exact afterValidation_clips env config d r2 hprobe hd hmm

/-- C4.  Any exception raised inside the job body is caught by the
top-level handler, recorded in `error_message`, and the result is returned
with status `FAILED`; `batch_process` over an existing directory returns
one `JobResult` per audio file, in order, each computed independently by
`process_audio_file` — so one file's failure cannot abort the batch. -/
theorem unexpected_error_containment (env : JobEnv) (config : Config)
    (msg : String) (r : JobResult)
    (h : processAudioFileBody env config = Except.error (msg, r)) :
    (processAudioFile env config).status = JobStatus.FAILED ∧
    (processAudioFile env config).error_message = msg ∧
    ∀ audio_files : List JobEnv,
      batchProcess true audio_files config =
        audio_files.map (fun e => processAudioFile e config) := by
  refine ⟨?_, ?_, ?_⟩
  · unfold processAudioFile
    rw [h]
    rfl
  · unfold processAudioFile
    rw [h]
    rfl
  · intro audio_files
    unfold batchProcess
    cases audio_files <;> simp

/-! ### Concrete job environments for witnesses and counterexamples -/

/-- A deterministic stand-in for the per-call random draws. -/
def trivialSelRandom : SelRandom := ⟨fun a _ => a, fun _ => 0, fun _ a _ => a, 0⟩

/-- A 12 s track over a one-image folder; every encode succeeds but
concatenation reports failure. -/
def sampleEnv : JobEnv :=
  { audio_path := "track.mp3"
    audio_name := "track"
    audio_exists := true
    media_folder_exists := true
    media_entries := [⟨"001.jpg", ".jpg", true⟩]
    probe := Except.ok 12
    encode := fun _ => Except.ok true
    concat := fun _ => Except.ok false
    confirm := none
    draw := lowDraw
    selRandom := fun _ => trivialSelRandom
    shuffle := id }

/-- `sampleEnv` with the middle clip failing to encode and concatenation
succeeding. -/
def sampleEnvPartial : JobEnv :=
  { sampleEnv with
      encode := fun i => if i = 1 then Except.ok false else Except.ok true
      concat := fun _ => Except.ok true }

/-- `sampleEnv` with a probe that raises. -/
def sampleEnvProbeError : JobEnv :=
  { sampleEnv with probe := Except.error ("boom") }

/-- The default configuration with the media-shortage warning disabled
(so a one-file folder passes validation cleanly). -/
def cfgNoWarn : Config := { warn_insufficient_media := false }

theorem jobPlans_sampleEnv :
    jobPlans sampleEnv cfgNoWarn 12 =
      [⟨0, 13/3, 0, 13/3⟩, ⟨1, 13/3, 23/6, 49/6⟩, ⟨2, 13/3, 23/3, 12⟩] := by
  rw [show jobPlans sampleEnv cfgNoWarn 12 =
    planClips ⟨12, 2, 5, 1/2, 1/4⟩ lowDraw from rfl]
  exact planClips_twelve_eval

theorem jobPlans_sampleEnvPartial :
    jobPlans sampleEnvPartial cfgNoWarn 12 =
      [⟨0, 13/3, 0, 13/3⟩, ⟨1, 13/3, 23/6, 49/6⟩, ⟨2, 13/3, 23/3, 12⟩] := by
  rw [show jobPlans sampleEnvPartial cfgNoWarn 12 =
    planClips ⟨12, 2, 5, 1/2, 1/4⟩ lowDraw from rfl]
  exact planClips_twelve_eval

/-- C3 counterexample.  A job that reaches processing with every clip
encode succeeding (3 planned, 3 encoded) still terminates `FAILED` when
the concatenation step fails — at least one successful encode does not
guarantee `COMPLETED`. -/
theorem partial_failure_counterexample :
    encodeSucceeds sampleEnv 0 = true ∧
    (processAudioFile sampleEnv cfgNoWarn).clips_processed = 3 ∧
    (processAudioFile sampleEnv cfgNoWarn).status = JobStatus.FAILED := by
  have hpool : (jobSelector sampleEnv cfgNoWarn).media_files ≠ [] := by
    rw [show (jobSelector sampleEnv cfgNoWarn).media_files =
      [⟨"001.jpg", MediaType.IMAGE, none, [], 0⟩] from rfl]
    simp
  refine ⟨rfl, ?_, ?_⟩
  · obtain ⟨r2, heq⟩ := processAudioFile_eq_afterValidation sampleEnv cfgNoWarn (Or.inl rfl)
    rw [heq, afterValidation_clips sampleEnv cfgNoWarn 12 r2 rfl (by norm_num) (by norm_num [cfgNoWarn])]
    rw [jobPlans_sampleEnv]
    rfl
  · obtain ⟨r2, heq⟩ := processAudioFile_eq_afterValidation sampleEnv cfgNoWarn (Or.inl rfl)
    rw [heq]
    obtain ⟨_, h2, _⟩ := afterValidation_status sampleEnv cfgNoWarn 12 r2 rfl
      (by norm_num) (by norm_num [cfgNoWarn]) hpool
    have hsucc : (List.range' 0 (jobPlans sampleEnv cfgNoWarn 12).length).filter
        (encodeSucceeds sampleEnv) = [0, 1, 2] := by
      rw [jobPlans_sampleEnv]
      rfl
    have h3 := h2 false (by rw [hsucc]; simp) (by rw [hsucc]; rfl)
    simpa using h3

/-- Witness for C3 (amended): with clip 1 failing and clips 0 and 2
succeeding, concatenation gets `[0, 2]` and the job completes. -/
theorem partial_failure_tolerance_witness :
    (processAudioFile sampleEnvPartial cfgNoWarn).status = JobStatus.COMPLETED := by
  have hpool : (jobSelector sampleEnvPartial cfgNoWarn).media_files ≠ [] := by
    rw [show (jobSelector sampleEnvPartial cfgNoWarn).media_files =
      [⟨"001.jpg", MediaType.IMAGE, none, [], 0⟩] from rfl]
    simp
  have h := partial_failure_tolerance sampleEnvPartial cfgNoWarn 12 (Or.inl rfl) rfl
    (by norm_num) (by norm_num [cfgNoWarn]) hpool
  have hsucc : (List.range' 0 (jobPlans sampleEnvPartial cfgNoWarn 12).length).filter
      (encodeSucceeds sampleEnvPartial) = [0, 2] := by
    rw [jobPlans_sampleEnvPartial]
    rfl
  have h2 := h.2 true (by rw [hsucc]; simp) (by rw [hsucc]; rfl)
  simpa using h2

/-- Witness for C10: the same partially-failing job reports
`clips_processed = 3` (the planned count), not the 2 successful encodes. -/
theorem clips_processed_counts_planned_witness :
    (processAudioFile sampleEnvPartial cfgNoWarn).clips_processed = 3 ∧
    (List.range' 0 (jobPlans sampleEnvPartial cfgNoWarn 12).length).filter
      (encodeSucceeds sampleEnvPartial) = [0, 2] := by
  constructor
  · rw [clips_processed_counts_planned sampleEnvPartial cfgNoWarn 12 (Or.inl rfl) rfl
      (by norm_num) (by norm_num [cfgNoWarn])]
    rw [jobPlans_sampleEnvPartial]
    rfl
  · rw [jobPlans_sampleEnvPartial]
    rfl

/-- Witness for C4: a probing exception is caught and recorded, and the
batch loop is the independent per-file map. -/
theorem unexpected_error_containment_witness :
    (processAudioFile sampleEnvProbeError cfgNoWarn).status = JobStatus.FAILED ∧
    (processAudioFile sampleEnvProbeError cfgNoWarn).error_message = "boom" ∧
    ∀ audio_files : List JobEnv,
      batchProcess true audio_files cfgNoWarn =
        audio_files.map (fun e => processAudioFile e cfgNoWarn) :=
  unexpected_error_containment sampleEnvProbeError cfgNoWarn "boom" _ rfl

end Mov3
